import Mathlib

/-!
Verification development for the forecast-data normalization pipeline of the
Hepatitis B dashboard (files `app.py` and `data_loader.py`).

The development shallowly embeds, directly from the source:

* the heuristic monthly loader `load_monthly_forecast` (app.py lines 95-162):
  column classification, date-column and value-column selection, date parsing
  with the "-01" reparse fallback, numeric coercion, synthetic prediction
  intervals from the sample standard deviation, `dropna(subset=["date"])`
  and `sort_values("date")`;
* the explicit-schema normalizer `_normalize_forecast_df`
  (data_loader.py lines 30-61) over a generic column-labelled frame;
* the rolling accuracy metrics `gen_metrics` (app.py lines 70-76).

Pandas parsing primitives (`pd.to_datetime`, `pd.to_numeric`, each with
`errors="coerce"`) are abstracted as parameters (`Pandas`): they are external
library calls, and every theorem either holds for all parsers or instantiates
them on concrete strings whose parse results are stated explicitly.  Missing
values (`NaN`/`NaT`) are modelled as `none`; numeric values as `ℚ`; the
float results of `numpy`'s `sqrt` (used for the standard deviation and RMSE)
live in `ℝ` via `Real.sqrt`.  Calendar dates are modelled as `ℤ` (an ordinal
day number): the pipeline only ever compares and sorts them.
-/

namespace HepB

/-- Raw CSV column as materialized by `pd.read_csv` (app.py line 103): a
header name, the pandas-inferred storage type (`numericDtype` is true exactly
when `select_dtypes(include=[np.number])` would keep the column), and the
cell contents viewed as strings (`astype(str)` is the identity here). -/
structure RawColumn where
  name : String
  numericDtype : Bool
  values : List String
deriving DecidableEq

/-- Raw table: the list of columns of the CSV, in file order. -/
structure RawTable where
  cols : List RawColumn
deriving DecidableEq

/-- Pandas frames are rectangular: all columns have the same number of rows. -/
def RawTable.Aligned (t : RawTable) : Prop :=
  ∀ c1 ∈ t.cols, ∀ c2 ∈ t.cols, c1.values.length = c2.values.length

/-- Abstracted pandas parsing primitives.  `toDatetime` models
`pd.to_datetime(x, errors="coerce")` on one cell (`none` = `NaT`);
`toNumeric` models `pd.to_numeric(x, errors="coerce")` on one cell
(`none` = `NaN`). -/
structure Pandas where
  toDatetime : String → Option ℤ
  toNumeric : String → Option ℚ

/-- Prefix test on character lists. -/
def chPre : List Char → List Char → Bool
  | [], _ => true
  | _ :: _, [] => false
  | a :: as, b :: bs => a == b && chPre as bs

/-- Substring test on character lists (`chSub needle haystack`), the
semantics of Python's `k in s`. -/
def chSub (k : List Char) : List Char → Bool
  | [] => chPre k []
  | h :: t => chPre k (h :: t) || chSub k t

/-- Python substring test `k in s`. -/
def containsKw (s k : String) : Bool := chSub k.toList s.toList

/-- Python `s.lower()` (the column names below are ASCII). -/
def lowerStr (s : String) : String := String.mk (s.toList.map Char.toLower)

/-- ASCII whitespace, for `str.strip()`. -/
def isWS (c : Char) : Bool := c == ' ' || c == '\t' || c == '\n' || c == '\r'

/-- Drop leading whitespace characters. -/
def dropWS : List Char → List Char
  | [] => []
  | c :: cs => if isWS c then dropWS cs else c :: cs

/-- Python `s.strip()` (the `.str.strip()` of app.py line 131 and the header
`strip()` of data_loader.py line 33), for ASCII whitespace. -/
def strTrim (s : String) : String :=
  String.mk ((dropWS (dropWS s.toList).reverse).reverse)

/-- Keywords marking a column as date-like (app.py line 105). -/
def dateKeywords : List String := ["date", "month", "period", "year"]

/-- Column classifier, date-like role (app.py line 105):
`any(k in c.lower() for k in ("date","month","period","year"))`. -/
def isDateLike (c : RawColumn) : Bool :=
  dateKeywords.any (fun k => containsKw (lowerStr c.name) k)

/-- The `date_like` list of app.py line 105, in discovery (file) order. -/
def dateLikeCols (t : RawTable) : List RawColumn := t.cols.filter isDateLike

/-- The `numeric_cols` list of app.py line 106: columns of numeric dtype. -/
def numericCols (t : RawTable) : List RawColumn :=
  t.cols.filter (fun c => c.numericDtype)

/-- The regex replacement of app.py line 108: strip every character that is
not a digit, a dot or a minus sign. -/
def stripNonNumeric (s : String) : String :=
  String.mk (s.toList.filter (fun ch => ch.isDigit || ch == '.' || ch == '-'))

/-- Column classifier, numeric-like-string role (app.py line 108): not of
numeric dtype, and at least one cell still nonempty after stripping
non-numeric characters. -/
def isNumericLike (c : RawColumn) : Bool :=
  !c.numericDtype && c.values.any (fun v => stripNonNumeric v != "")

/-- The `numeric_like` list of app.py line 108. -/
def numericLikeCols (t : RawTable) : List RawColumn := t.cols.filter isNumericLike

/-- Keywords preferred for the prediction-value column (app.py line 121). -/
def valueKeywords : List String :=
  ["forecast", "pred", "median", "value", "count", "case", "cases", "n_", "total"]

/-- Value-column keyword predicate of app.py line 121. -/
def kwMatch (c : RawColumn) : Bool :=
  valueKeywords.any (fun k => containsKw (lowerStr c.name) k)

/-- The combined candidate list `numeric_cols + numeric_like`
(app.py lines 121-122), in classifier discovery order. -/
def candidateCols (t : RawTable) : List RawColumn := numericCols t ++ numericLikeCols t

/-- The `preferred` list of app.py line 121. -/
def preferredCols (t : RawTable) : List RawColumn := (candidateCols t).filter kwMatch

/-- Value column that app.py line 125 uses (the selectbox default,
`index=0`): the first preferred candidate, else the first candidate;
`none` when there is no candidate at all (in which case app.py line 124
raises before any selection). -/
def chosenValueCol (t : RawTable) : Option RawColumn :=
  match candidateCols t with
  | [] => none
  | vc :: _ => some ((preferredCols t).headD vc)

/-- Date column that app.py lines 115-119 use (selectbox default,
`index=0`): the first date-like column, else the first column of the frame.
`none` in the same no-candidate case in which the loader raises first; the
inner `headD vc` default is never reached, since a candidate column implies
a nonempty column list. -/
def chosenDateCol (t : RawTable) : Option RawColumn :=
  match candidateCols t with
  | [] => none
  | vc :: _ => some ((dateLikeCols t).headD (t.cols.headD vc))

/-- Errors raised by the loaders.  `noNumericColumnError` is the
`ValueError("No numeric columns found to use as predicted_median.")` of
app.py line 124 (the spec names it `NoNumericColumnError`);
`missingRequiredColumnError` is the `ValueError` of data_loader.py line 38
(the spec names it `MissingRequiredColumnError`). -/
inductive LoadError where
  | noNumericColumnError
  | missingRequiredColumnError
deriving DecidableEq

/-- Date resolution of app.py lines 128-135: direct parse; if every entry
failed, reparse with `-01` appended to the stripped strings; if any entry is
still unresolved, fall back to the direct parse again (discarding a partially
successful reparse).  The comment in the source about a synthetic monthly
axis is not implemented by the code. -/
def parseDates (p : Pandas) (vals : List String) : List (Option ℤ) :=
  let s1 := vals.map p.toDatetime
  let s2 := if s1.all (fun d => d.isNone) then
      vals.map (fun v => p.toDatetime (strTrim v ++ "-01"))
    else s1
  if s2.any (fun d => d.isNone) then vals.map p.toDatetime else s2

/-- Numeric coercion of a whole column,
`pd.to_numeric(df[col], errors="coerce")` (app.py line 139). -/
def coercedSeries (p : Pandas) (c : RawColumn) : List (Option ℚ) :=
  c.values.map p.toNumeric

/-- Sample variance with `ddof=1` over the non-missing entries, so that
`pandas.Series.std(skipna=True)` is its square root: `NaN` (here `none`)
when fewer than two entries remain. -/
def sampleVar (l : List ℚ) : Option ℚ :=
  if 2 ≤ l.length then
    some ((l.map (fun x => (x - l.sum / l.length) ^ 2)).sum / (l.length - 1))
  else none

/-- Variance of a coerced series, skipping missing values
(`std(skipna=True)`, app.py lines 151 and 156). -/
def seriesVar (pm : List (Option ℚ)) : Option ℚ := sampleVar pm.reduceOption

/-- The 80% half-width of app.py line 152:
`sigma if not np.isnan(sigma) and sigma > 0 else 1.5`, where
`sigma = std(skipna=True)` is the square root of `seriesVar` (so `sigma` is
`NaN` exactly when the variance is undefined, and `sigma > 0` exactly when
the variance is positive). -/
noncomputable def pi80Width (pm : List (Option ℚ)) : ℝ :=
  match seriesVar pm with
  | some v => if 0 < v then Real.sqrt (v : ℝ) else 1.5
  | none => 1.5

/-- The 95% half-width of app.py line 157:
`2 * (sigma if not np.isnan(sigma) and sigma > 0 else 3.0)`.  Note the
parenthesization: the factor 2 multiplies the fallback constant as well. -/
noncomputable def pi95Width (pm : List (Option ℚ)) : ℝ :=
  2 * (match seriesVar pm with
       | some v => if 0 < v then Real.sqrt (v : ℝ) else 3
       | none => 3)

/-- One row of the frame `out` that `load_monthly_forecast` builds
(app.py lines 137-159): its columns are exactly `date, predicted_median,
actual, pi80_low, pi80_high, pi95_low, pi95_high`, in that order. -/
structure CanonRow where
  date : Option ℤ
  predicted_median : Option ℚ
  actual : Option ℚ
  pi80_low : Option ℝ
  pi80_high : Option ℝ
  pi95_low : Option ℝ
  pi95_high : Option ℝ

/-- Predicted median of a row as a real number, for comparison with the
interval bounds. -/
noncomputable def CanonRow.pmReal (r : CanonRow) : Option ℝ :=
  r.predicted_median.map (fun q : ℚ => (q : ℝ))

/-- Pointwise `zipWith` over three lists (pandas columns of one frame). -/
def zip3With (f : α → β → γ → δ) : List α → List β → List γ → List δ
  | a :: as, b :: bs, c :: cs => f a b c :: zip3With f as bs cs
  | _, _, _ => []

/-- Keywords for ground-truth detection (app.py line 143). -/
def actualKeywords : List String := ["actual", "observed", "obs", "report"]

/-- The `possible_actual` list of app.py line 143. -/
def actualCols (t : RawTable) : List RawColumn :=
  t.cols.filter (fun c => actualKeywords.any (fun k => containsKw (lowerStr c.name) k))

/-- The `actual` column of app.py lines 143-147: the first name-matching
column coerced numerically, else all-`NaN` (`np.nan` broadcast over the
frame's `n` rows). -/
def actualSeries (p : Pandas) (t : RawTable) (n : ℕ) : List (Option ℚ) :=
  match actualCols t with
  | a :: _ => coercedSeries p a
  | [] => List.replicate n none

/-- The rows of the frame `out` of app.py lines 137-159, before
`dropna`/`sort_values`: dates from `parseDates`, predictions from numeric
coercion, the `actual` series, and the synthetic interval columns
`predicted_median ∓ width` (`NaN` propagates through the subtraction). -/
noncomputable def monthlyRowsRaw (p : Pandas) (dc vc : RawColumn)
    (acts : List (Option ℚ)) : List CanonRow :=
  zip3With (fun d m a =>
      { date := d
        predicted_median := m
        actual := a
        pi80_low := m.map (fun q : ℚ => (q : ℝ) - pi80Width (coercedSeries p vc))
        pi80_high := m.map (fun q : ℚ => (q : ℝ) + pi80Width (coercedSeries p vc))
        pi95_low := m.map (fun q : ℚ => (q : ℝ) - pi95Width (coercedSeries p vc))
        pi95_high := m.map (fun q : ℚ => (q : ℝ) + pi95Width (coercedSeries p vc)) })
    (parseDates p dc.values) (coercedSeries p vc) acts

/-- Comparison used by `sort_values("date")` on rows: order by date,
missing dates last (`na_position="last"`). -/
def dateRowLE (r1 r2 : CanonRow) : Bool :=
  match r1.date, r2.date with
  | some a, some b => decide (a ≤ b)
  | _, none => true
  | none, some _ => false

/-- The sorting relation on canonical rows. -/
def rowLE (r1 r2 : CanonRow) : Prop := dateRowLE r1 r2 = true

instance : DecidableRel rowLE := fun r1 r2 =>
  inferInstanceAs (Decidable (dateRowLE r1 r2 = true))

instance : IsTotal CanonRow rowLE := by
  constructor
  intro a b
  unfold rowLE dateRowLE
  rcases a.date with _ | x <;> rcases b.date with _ | y <;> simp
  omega

instance : IsTrans CanonRow rowLE := by
  constructor
  intro a b c
  unfold rowLE dateRowLE
  rcases a.date with _ | x <;> rcases b.date with _ | y <;>
    rcases c.date with _ | z <;> simp <;> omega

/-- The `sort_values("date")` step on the row list (a stable sort; pandas
does not specify the order of rows with equal dates). -/
noncomputable def sortRows (l : List CanonRow) : List CanonRow :=
  List.insertionSort rowLE l

/-- The specialized monthly loader `load_monthly_forecast`
(app.py lines 95-162), with the interactive selectboxes at their defaults
(`index=0`): classify columns, raise when there is no numeric or
numeric-like candidate (line 124), resolve dates and coerce the chosen value
column, attach `actual` and the synthetic intervals, then
`dropna(subset=["date"]).sort_values("date")` (line 161).  Only rows with a
missing date are dropped; nothing deduplicates dates; predictions are never
filtered. -/
noncomputable def load_monthly_forecast (p : Pandas) (t : RawTable) :
    Except LoadError (List CanonRow) :=
  match chosenDateCol t, chosenValueCol t with
  | some dc, some vc =>
      .ok (sortRows ((monthlyRowsRaw p dc vc
        (actualSeries p t dc.values.length)).filter (fun r => r.date.isSome)))
  | _, _ => .error .noNumericColumnError

/-- Ordering of optional float values as NumPy evaluates `x <= y`: true only
when both sides are actual numbers that compare (any comparison with `NaN`
is false). -/
def optLE (a b : Option ℝ) : Prop := ∃ x y, a = some x ∧ b = some y ∧ x ≤ y

/-- Cell of a generic pandas frame as handled by `_normalize_forecast_df`
(data_loader.py lines 30-61): a raw string, a numeric value (`none` = `NaN`),
or a datetime value (`none` = `NaT`). -/
inductive CellVal where
  | str : String → CellVal
  | num : Option ℚ → CellVal
  | dt : Option ℤ → CellVal
deriving DecidableEq

/-- Generic column-labelled frame: header names and rows aligned with them. -/
structure PDF where
  names : List String
  rows : List (List CellVal)
deriving DecidableEq

/-- Pandas frames are rectangular: every row has one cell per column. -/
def PDF.WF (df : PDF) : Prop := ∀ r ∈ df.rows, r.length = df.names.length

/-- Index of the first column with the given header, as `df[name]` resolves
a label. -/
def colIdxAux (n : String) : List String → Option ℕ
  | [] => none
  | m :: ms => if m = n then some 0 else (colIdxAux n ms).map (fun j => j + 1)

/-- Index of a column label in a frame. -/
def PDF.colIdx (df : PDF) (n : String) : Option ℕ := colIdxAux n df.names

/-- Membership test `name in df.columns`. -/
def PDF.hasCol (df : PDF) (n : String) : Bool := df.names.contains n

/-- Column extraction `df[name]` (empty when the label is absent; the code
only reads columns it has checked for). -/
def PDF.getCol (df : PDF) (n : String) : List CellVal :=
  match df.colIdx n with
  | some j => df.rows.map (fun r => r.getD j (.num none))
  | none => []

/-- Column assignment `df[name] = vs`: overwrite in place when the label
exists, otherwise append a new rightmost column. -/
def PDF.setCol (df : PDF) (n : String) (vs : List CellVal) : PDF :=
  match df.colIdx n with
  | some j => { df with rows := List.zipWith (fun r v => r.set j v) df.rows vs }
  | none => { names := df.names ++ [n],
              rows := List.zipWith (fun r v => r ++ [v]) df.rows vs }

/-- Dtype test `pd.api.types.is_datetime64_any_dtype` on a column: every cell
already holds a datetime value. -/
def isDatetimeCol (col : List CellVal) : Bool :=
  col.all (fun c => match c with | .dt _ => true | _ => false)

/-- Elementwise `pd.to_datetime(cell, errors="coerce")` for the coercion at
data_loader.py line 42: strings go through the abstract parser, datetime
values pass through.  A numeric cell (which pandas would read as an epoch
offset) is modelled as unresolved; no theorem below depends on that case. -/
def cellToDT (p : Pandas) : CellVal → Option ℤ
  | .str s => p.toDatetime s
  | .dt d => d
  | .num _ => none

/-- Elementwise `predicted_median - w` (data_loader.py lines 50 and 54):
`NaN` propagates.  A non-numeric cell (on which pandas would raise a
`TypeError` for the subtraction) is modelled as `NaN`; no theorem below
depends on that case. -/
def cellSubW (w : ℚ) : CellVal → CellVal
  | .num q => .num (q.map (fun x => x - w))
  | _ => .num none

/-- Elementwise `predicted_median + w` (data_loader.py lines 51 and 55). -/
def cellAddW (w : ℚ) : CellVal → CellVal
  | .num q => .num (q.map (fun x => x + w))
  | _ => .num none

/-- Date key of a row cell for sorting: non-datetime cells (which cannot
occur at the sorting step, since the date column was just coerced) count as
missing. -/
def cellDateKey : CellVal → Option ℤ
  | .dt d => d
  | _ => none

/-- Comparison used by `sort_values("date")` on generic rows: order by the
date cell, missing dates last (`na_position="last"`). -/
def cellDateLE (a b : CellVal) : Bool :=
  match cellDateKey a, cellDateKey b with
  | some x, some y => decide (x ≤ y)
  | _, none => true
  | none, some _ => false

/-- The sorting relation on generic rows, keyed on column `j`. -/
def pdfRowLE (j : ℕ) (r1 r2 : List CellVal) : Prop :=
  cellDateLE (r1.getD j (.num none)) (r2.getD j (.num none)) = true

instance (j : ℕ) : DecidableRel (pdfRowLE j) := fun r1 r2 =>
  inferInstanceAs
    (Decidable (cellDateLE (r1.getD j (.num none)) (r2.getD j (.num none)) = true))

instance (j : ℕ) : IsTotal (List CellVal) (pdfRowLE j) := by
  constructor
  intro a b
  unfold pdfRowLE cellDateLE
  rcases cellDateKey (a.getD j (.num none)) with _ | x <;>
    rcases cellDateKey (b.getD j (.num none)) with _ | y <;> simp
  omega

instance (j : ℕ) : IsTrans (List CellVal) (pdfRowLE j) := by
  constructor
  intro a b c
  unfold pdfRowLE cellDateLE
  rcases cellDateKey (a.getD j (.num none)) with _ | x <;>
    rcases cellDateKey (b.getD j (.num none)) with _ | y <;>
    rcases cellDateKey (c.getD j (.num none)) with _ | z <;> simp <;> omega

/-- Step 1 of `_normalize_forecast_df` (data_loader.py line 33):
`df.rename(columns=lambda c: c.strip())`. -/
def trimNames (df : PDF) : PDF := { df with names := df.names.map strTrim }

/-- Step 2 (data_loader.py lines 41-42): coerce the `date` column to
datetime unless it already is. -/
def coerceDates (p : Pandas) (df : PDF) : PDF :=
  if isDatetimeCol (df.getCol "date") then df
  else df.setCol "date" ((df.getCol "date").map (fun c => CellVal.dt (cellToDT p c)))

/-- Step 3 (data_loader.py line 43): `df.sort_values("date")` — a sort only;
rows with `NaT` dates are kept (placed last) and duplicate dates are kept. -/
def sortRowsByDate (df : PDF) : PDF :=
  match df.colIdx "date" with
  | some j => { df with rows := List.insertionSort (pdfRowLE j) df.rows }
  | none => df

/-- Step 4 (data_loader.py lines 46-47): add an all-`NaN` `actual` column
when absent. -/
def addActual (df : PDF) : PDF :=
  if df.hasCol "actual" then df
  else df.setCol "actual" (List.replicate df.rows.length (.num none))

/-- Step 5 (data_loader.py lines 48-51): unless BOTH `pi80_low` and
`pi80_high` are present, assign both from `predicted_median ∓ 1.5` —
overwriting whichever of the pair the input did supply. -/
def addPi80 (df : PDF) : PDF :=
  if df.hasCol "pi80_low" && df.hasCol "pi80_high" then df
  else
    let d1 := df.setCol "pi80_low"
      ((df.getCol "predicted_median").map (cellSubW (3 / 2)))
    d1.setCol "pi80_high" ((d1.getCol "predicted_median").map (cellAddW (3 / 2)))

/-- Step 6 (data_loader.py lines 52-55): the same for the 95% pair with the
fixed width `3.0`. -/
def addPi95 (df : PDF) : PDF :=
  if df.hasCol "pi95_low" && df.hasCol "pi95_high" then df
  else
    let d1 := df.setCol "pi95_low"
      ((df.getCol "predicted_median").map (cellSubW 3))
    d1.setCol "pi95_high" ((d1.getCol "predicted_median").map (cellAddW 3))

/-- The explicit-schema normalizer `_normalize_forecast_df`
(data_loader.py lines 30-61), with `anonymize=False` (its default at both
call sites; the `anonymize` branch only rewrites a `patient_id` column):
trim header names, require `date` and `predicted_median`
(`ValueError` at line 38 otherwise), coerce dates, sort, and add the
optional columns.  All input columns are carried through unchanged; no row
is ever dropped. -/
def normalize_forecast_df (p : Pandas) (df0 : PDF) : Except LoadError PDF :=
  let df1 := trimNames df0
  if "date" ∈ df1.names ∧ "predicted_median" ∈ df1.names then
    .ok (addPi95 (addPi80 (addActual (sortRowsByDate (coerceDates p df1)))))
  else .error .missingRequiredColumnError

/-- The canonical column set of the spec (§6). -/
def canonicalCols : List String :=
  ["date", "predicted_median", "actual",
   "pi80_low", "pi80_high", "pi95_low", "pi95_high"]

/-- Ordering of optional rational cells as pandas evaluates `x <= y`: true
only when both cells hold actual numbers that compare. -/
def cellLE (a b : CellVal) : Prop :=
  ∃ x y : ℚ, a = .num (some x) ∧ b = .num (some y) ∧ x ≤ y

/-- Elementwise absolute error
`(df["actual"] - df["predicted_median"]).abs()` (app.py line 73): `NaN`
whenever either operand is `NaN`. -/
def absErr : Option ℚ → Option ℚ → Option ℚ
  | some a, some m => some |a - m|
  | _, _ => none

/-- The `error` column of `gen_metrics` over the `actual` and
`predicted_median` columns. -/
def errSeries (actual pm : List (Option ℚ)) : List (Option ℚ) :=
  List.zipWith absErr actual pm

/-- The trailing window of up to 7 entries ending at index `i`, as
`rolling(7, min_periods=1)` forms it. -/
def rollWindow (l : List (Option ℚ)) (i : ℕ) : List (Option ℚ) :=
  (l.take (i + 1)).drop (i + 1 - 7)

/-- Window aggregation of `rolling(...).mean()`: the mean of the non-`NaN`
entries, `NaN` when there is none (with `min_periods=1`, a window whose
entries are all `NaN` yields `NaN`). -/
def nanMean (w : List (Option ℚ)) : Option ℚ :=
  if w.reduceOption = [] then none
  else some (w.reduceOption.sum / w.reduceOption.length)

/-- The rolling mean series `l.rolling(7, min_periods=1).mean()`. -/
def rollingMean (l : List (Option ℚ)) : List (Option ℚ) :=
  (List.range l.length).map (fun i => nanMean (rollWindow l i))

/-- The `MAE` column of `gen_metrics` (app.py line 74). -/
def genMAE (actual pm : List (Option ℚ)) : List (Option ℚ) :=
  rollingMean (errSeries actual pm)

/-- Elementwise `error ** 2` (app.py line 75): `NaN` propagates. -/
def sqErr (l : List (Option ℚ)) : List (Option ℚ) :=
  l.map (Option.map (fun e => e ^ 2))

/-- The mean-square series `(error ** 2).rolling(7, min_periods=1).mean()`
of app.py line 75, before `np.sqrt`. -/
def genMSE (actual pm : List (Option ℚ)) : List (Option ℚ) :=
  rollingMean (sqErr (errSeries actual pm))

/-- The `RMSE` column of `gen_metrics` (app.py line 75): the elementwise
square root of the rolling mean of squared errors. -/
noncomputable def genRMSE (actual pm : List (Option ℚ)) : List (Option ℝ) :=
  (genMSE actual pm).map (Option.map (fun q : ℚ => Real.sqrt (q : ℝ)))

/-! Concrete instances used by witnesses and counterexamples.  Each parser
is a pandas stub whose stated parse results on the concrete strings below
match `pd.to_datetime` / `pd.to_numeric` with `errors="coerce"` (dates are
day ordinals; unparseable inputs give `none`). -/

/-- A `Month` column holding a year-month string (parseable directly by
`pd.to_datetime`). -/
def T1month : RawColumn := { name := "Month", numericDtype := false, values := ["2025-01"] }

/-- A numeric forecast column with a single value. -/
def T1fc : RawColumn := { name := "Forecast_Cases", numericDtype := true, values := ["10"] }

/-- One-row monthly CSV: with a single prediction the sample standard
deviation is undefined, so interval synthesis takes the fallback branch. -/
def T1 : RawTable := { cols := [T1month, T1fc] }

/-- Parser stub for `T1`. -/
def P1 : Pandas :=
  { toDatetime := fun s => if s = "2025-01" then some 0 else none
    toNumeric := fun s => if s = "10" then some 10 else none }

/-- The single canonical row the monthly loader produces from `T1`:
fallback widths `1.5` (80%) and `2 * 3.0 = 6.0` (95%). -/
noncomputable def S1row : CanonRow :=
  { date := some 0, predicted_median := some 10, actual := none,
    pi80_low := some (17 / 2), pi80_high := some (23 / 2),
    pi95_low := some 4, pi95_high := some 16 }

/-- A date column with the same date twice. -/
def T2date : RawColumn :=
  { name := "date", numericDtype := false, values := ["2025-01-01", "2025-01-01"] }

/-- A numeric value column for `T2`. -/
def T2cases : RawColumn := { name := "cases", numericDtype := true, values := ["1", "1"] }

/-- Two-row monthly CSV whose rows carry the same date. -/
def T2 : RawTable := { cols := [T2date, T2cases] }

/-- Parser stub for `T2`. -/
def P2 : Pandas :=
  { toDatetime := fun s => if s = "2025-01-01" then some 100 else none
    toNumeric := fun s => if s = "1" then some 1 else none }

/-- The canonical row produced (twice) from `T2`: the two predictions are
equal, so the sample variance is `0` and synthesis uses the fallback
widths. -/
noncomputable def S2row : CanonRow :=
  { date := some 100, predicted_median := some 1, actual := none,
    pi80_low := some (-(1 / 2)), pi80_high := some (5 / 2),
    pi95_low := some (-5), pi95_high := some 7 }

/-- A date column no entry of which is parseable, directly or with `-01`
appended. -/
def T3date : RawColumn := { name := "date", numericDtype := false, values := ["garbage"] }

/-- A numeric value column for `T3`. -/
def T3cases : RawColumn := { name := "cases", numericDtype := true, values := ["5"] }

/-- Monthly CSV with no resolvable date anywhere. -/
def T3 : RawTable := { cols := [T3date, T3cases] }

/-- Parser stub for `T3`: nothing parses as a date. -/
def P3 : Pandas :=
  { toDatetime := fun _ => none
    toNumeric := fun s => if s = "5" then some 5 else none }

/-- A date column with two parseable dates. -/
def T4date : RawColumn :=
  { name := "date", numericDtype := false, values := ["2025-01-01", "2025-01-02"] }

/-- A text value column (numeric-like: it contains digits) none of whose
entries coerces to a number. -/
def T4cases : RawColumn := { name := "cases", numericDtype := false, values := ["x1", "x2"] }

/-- Monthly CSV whose every prediction coerces to `NaN`. -/
def T4 : RawTable := { cols := [T4date, T4cases] }

/-- Parser stub for `T4`. -/
def P4 : Pandas :=
  { toDatetime := fun s =>
      if s = "2025-01-01" then some 200 else if s = "2025-01-02" then some 201 else none
    toNumeric := fun _ => none }

/-- First canonical row from `T4`: resolved date, `NaN` prediction and
`NaN` interval bounds. -/
def S4row0 : CanonRow :=
  { date := some 200, predicted_median := none, actual := none,
    pi80_low := none, pi80_high := none, pi95_low := none, pi95_high := none }

/-- Second canonical row from `T4`. -/
def S4row1 : CanonRow :=
  { date := some 201, predicted_median := none, actual := none,
    pi80_low := none, pi80_high := none, pi95_low := none, pi95_high := none }

/-- A table with no numeric and no numeric-like column (its only cell strips
to the empty string). -/
def T9 : RawTable := { cols := [{ name := "notes", numericDtype := false, values := ["abc"] }] }

/-- A numeric column whose name matches no value keyword. -/
def T9x : RawColumn := { name := "x", numericDtype := true, values := ["1"] }

/-- A second keyword-free numeric column. -/
def T9y : RawColumn := { name := "y", numericDtype := true, values := ["2"] }

/-- A table whose candidate columns match no preference keyword. -/
def T9b : RawTable := { cols := [T9x, T9y] }

/-- Parser stub for the normalizer frames below. -/
def PN : Pandas :=
  { toDatetime := fun s => if s = "d1" then some 1 else if s = "d2" then some 2 else none
    toNumeric := fun _ => none }

/-- Minimal explicit-schema frame: `date` and `predicted_median` only. -/
def N1 : PDF :=
  { names := ["date", "predicted_median"], rows := [[.str "d1", .num (some 10)]] }

/-- The normalizer's output on `N1`. -/
def N1out : PDF :=
  { names := ["date", "predicted_median", "actual",
              "pi80_low", "pi80_high", "pi95_low", "pi95_high"],
    rows := [[.dt (some 1), .num (some 10), .num none,
              .num (some (17 / 2)), .num (some (23 / 2)),
              .num (some 7), .num (some 13)]] }

/-- Explicit-schema frame with an extra, non-canonical column. -/
def N2 : PDF :=
  { names := ["date", "predicted_median", "extra"],
    rows := [[.str "d1", .num (some 10), .str "z"]] }

/-- Explicit-schema frame whose first row has an unparseable date. -/
def N3 : PDF :=
  { names := ["date", "predicted_median"],
    rows := [[.str "bad", .num (some 1)], [.str "d1", .num (some 2)]] }

/-- Explicit-schema frame supplying `pi80_low` (value `999`) but not
`pi80_high`. -/
def N4 : PDF :=
  { names := ["date", "predicted_median", "pi80_low"],
    rows := [[.str "d1", .num (some 10), .num (some 999)]] }

/-- The frame a successful normalizer run returns, as a total function (used
to state concrete runs; the error branch is never reached under the guard). -/
def normOut (p : Pandas) (df : PDF) : PDF :=
  match normalize_forecast_df p df with
  | .ok o => o
  | .error _ => { names := [], rows := [] }

/-- Ground-truth column for the metrics example. -/
def exActual : List (Option ℚ) := [none, some 7, some 9]

/-- Prediction column for the metrics example: the error series is
`[NaN, 2, 4]`. -/
def exPm : List (Option ℚ) := [some 1, some 5, some 5]

/-! Helper lemmas. -/

theorem mem_zip3With {f : α → β → γ → δ} {x : δ} :
    ∀ {as : List α} {bs : List β} {cs : List γ},
      x ∈ zip3With f as bs cs → ∃ a b c, a ∈ as ∧ b ∈ bs ∧ c ∈ cs ∧ x = f a b c
  | a :: as, b :: bs, c :: cs, h => by
    rcases List.mem_cons.mp h with h | h
    · exact ⟨a, b, c, List.mem_cons_self .., List.mem_cons_self .., List.mem_cons_self .., h⟩
    · obtain ⟨a', b', c', ha, hb, hc, hx⟩ := mem_zip3With h
      exact ⟨a', b', c', List.mem_cons_of_mem _ ha, List.mem_cons_of_mem _ hb,
        List.mem_cons_of_mem _ hc, hx⟩

theorem length_zip3With (f : α → β → γ → δ) :
    ∀ (as : List α) (bs : List β) (cs : List γ),
      (zip3With f as bs cs).length = min as.length (min bs.length cs.length)
  | [], _, _ => by cases ‹List β› <;> cases ‹List γ› <;> simp [zip3With]
  | _ :: _, [], _ => by simp [zip3With]
  | _ :: _, _ :: _, [] => by simp [zip3With]
  | a :: as, b :: bs, c :: cs => by
    simp [zip3With, length_zip3With f as bs cs]
    omega

theorem date_mem_zip3With_monthlyRow {p : Pandas} {dc vc : RawColumn}
    {acts : List (Option ℚ)} {r : CanonRow} (h : r ∈ monthlyRowsRaw p dc vc acts) :
    ∃ d m a, d ∈ parseDates p dc.values ∧ m ∈ coercedSeries p vc ∧ a ∈ acts ∧
      r = { date := d, predicted_median := m, actual := a,
            pi80_low := m.map (fun q : ℚ => (q : ℝ) - pi80Width (coercedSeries p vc))
            pi80_high := m.map (fun q : ℚ => (q : ℝ) + pi80Width (coercedSeries p vc))
            pi95_low := m.map (fun q : ℚ => (q : ℝ) - pi95Width (coercedSeries p vc))
            pi95_high := m.map (fun q : ℚ => (q : ℝ) + pi95Width (coercedSeries p vc)) } :=
  mem_zip3With h

theorem load_monthly_eq {p : Pandas} {t : RawTable} {dc vc : RawColumn}
    (hd : chosenDateCol t = some dc) (hv : chosenValueCol t = some vc) :
    load_monthly_forecast p t =
      .ok (sortRows ((monthlyRowsRaw p dc vc
        (actualSeries p t dc.values.length)).filter (fun r => r.date.isSome))) := by
  unfold load_monthly_forecast
  rw [hd, hv]

theorem load_monthly_error {p : Pandas} {t : RawTable}
    (h : candidateCols t = []) :
    load_monthly_forecast p t = .error .noNumericColumnError := by
  unfold load_monthly_forecast chosenDateCol chosenValueCol
  rw [h]

theorem chosen_some_of_candidates {t : RawTable} (h : candidateCols t ≠ []) :
    (chosenDateCol t).isSome = true ∧ (chosenValueCol t).isSome = true := by
  unfold chosenDateCol chosenValueCol
  cases hc : candidateCols t with
  | nil => exact absurd hc h
  | cons vc rest => simp

theorem mem_sortRows {r : CanonRow} {l : List CanonRow} :
    r ∈ sortRows l ↔ r ∈ l :=
  (List.perm_insertionSort rowLE l).mem_iff

theorem length_sortRows (l : List CanonRow) : (sortRows l).length = l.length :=
  (List.perm_insertionSort rowLE l).length_eq

theorem countP_sortRows (q : CanonRow → Bool) (l : List CanonRow) :
    (sortRows l).countP q = l.countP q :=
  (List.perm_insertionSort rowLE l).countP_eq q

theorem sorted_sortRows (l : List CanonRow) : (sortRows l).Sorted rowLE :=
  List.sorted_insertionSort rowLE l

theorem pi95Width_of_var_pos {pm : List (Option ℚ)} {v : ℚ}
    (h : seriesVar pm = some v) (hv : 0 < v) :
    pi95Width pm = 2 * Real.sqrt (v : ℝ) := by
  unfold pi95Width
  rw [h]
  simp [hv]

theorem pi95Width_fallback {pm : List (Option ℚ)}
    (h : ∀ v : ℚ, seriesVar pm = some v → v ≤ 0) : pi95Width pm = 6 := by
  unfold pi95Width
  cases hv : seriesVar pm with
  | none => norm_num
  | some v =>
    have hle : ¬(0 < v) := not_lt.mpr (h v hv)
    show 2 * (if 0 < v then Real.sqrt (v : ℝ) else 3) = 6
    rw [if_neg hle]
    norm_num

theorem pi80Width_of_var_pos {pm : List (Option ℚ)} {v : ℚ}
    (h : seriesVar pm = some v) (hv : 0 < v) :
    pi80Width pm = Real.sqrt (v : ℝ) := by
  unfold pi80Width
  rw [h]
  simp [hv]

theorem pi80Width_fallback {pm : List (Option ℚ)}
    (h : ∀ v : ℚ, seriesVar pm = some v → v ≤ 0) : pi80Width pm = 1.5 := by
  unfold pi80Width
  cases hv : seriesVar pm with
  | none => rfl
  | some v =>
    have hle : ¬(0 < v) := not_lt.mpr (h v hv)
    show (if 0 < v then Real.sqrt (v : ℝ) else 1.5) = 1.5
    rw [if_neg hle]

theorem pi80Width_nonneg (pm : List (Option ℚ)) : 0 ≤ pi80Width pm := by
  unfold pi80Width
  cases seriesVar pm with
  | none => norm_num
  | some v =>
    show 0 ≤ if 0 < v then Real.sqrt (v : ℝ) else 1.5
    split
    · exact Real.sqrt_nonneg _
    · norm_num

theorem loadS1 : load_monthly_forecast P1 T1 = .ok [S1row] := by
  rw [load_monthly_eq (show chosenDateCol T1 = some T1month from by decide)
    (show chosenValueCol T1 = some T1fc from by decide)]
  have hvar : seriesVar (coercedSeries P1 T1fc) = none := by decide
  have hw80 : pi80Width (coercedSeries P1 T1fc) = 1.5 :=
    pi80Width_fallback (fun v hv => by rw [hvar] at hv; cases hv)
  have hw95 : pi95Width (coercedSeries P1 T1fc) = 6 :=
    pi95Width_fallback (fun v hv => by rw [hvar] at hv; cases hv)
  rw [show actualSeries P1 T1 T1month.values.length = [none] from by decide]
  unfold monthlyRowsRaw
  rw [show coercedSeries P1 T1fc = [some 10] from by decide] at hw80 hw95 ⊢
  rw [show parseDates P1 T1month.values = [some 0] from by decide]
  simp only [zip3With, hw80, hw95, Option.map_some]
  simp only [List.filter, Option.isSome_some, sortRows, List.insertionSort,
    List.orderedInsert]
  unfold S1row
  norm_num

theorem colIdxAux_lt {n : String} : ∀ {ms : List String} {j : ℕ},
    colIdxAux n ms = some j → j < ms.length := by
  intro ms
  induction ms with
  | nil => intro j h; cases h
  | cons m ms ih =>
    intro j h
    simp only [colIdxAux] at h
    by_cases hm : m = n
    · rw [if_pos hm] at h
      obtain rfl : (0 : ℕ) = j := Option.some.inj h
      simp only [List.length_cons]
      omega
    · rw [if_neg hm] at h
      cases hj : colIdxAux n ms with
      | none => rw [hj] at h; cases h
      | some j' =>
        rw [hj] at h
        obtain rfl : j' + 1 = j := Option.some.inj (by simpa using h)
        have := ih hj
        simp only [List.length_cons]
        omega

theorem colIdxAux_getD {n : String} : ∀ {ms : List String} {j : ℕ},
    colIdxAux n ms = some j → ms.getD j "" = n := by
  intro ms
  induction ms with
  | nil => intro j h; cases h
  | cons m ms ih =>
    intro j h
    simp only [colIdxAux] at h
    by_cases hm : m = n
    · rw [if_pos hm] at h
      obtain rfl : (0 : ℕ) = j := Option.some.inj h
      simpa using hm
    · rw [if_neg hm] at h
      cases hj : colIdxAux n ms with
      | none => rw [hj] at h; cases h
      | some j' =>
        rw [hj] at h
        obtain rfl : j' + 1 = j := Option.some.inj (by simpa using h)
        simpa using ih hj

theorem colIdxAux_eq_none_iff {n : String} : ∀ {ms : List String},
    colIdxAux n ms = none ↔ n ∉ ms := by
  intro ms
  induction ms with
  | nil => simp [colIdxAux]
  | cons m ms ih =>
    simp only [colIdxAux]
    by_cases hm : m = n
    · simp [hm]
    · rw [if_neg hm]
      simp [Option.map_eq_none', ih, Ne.symm hm]

theorem colIdxAux_append_of_none {n : String} :
    ∀ {ms : List String}, colIdxAux n ms = none → ∀ ks : List String,
      colIdxAux n (ms ++ ks) = (colIdxAux n ks).map (fun j => j + ms.length) := by
  intro ms
  induction ms with
  | nil =>
    intro _ ks
    simp only [List.nil_append, List.length_nil]
    cases hk : colIdxAux n ks <;> simp
  | cons m ms ih =>
    intro h ks
    simp only [colIdxAux, List.cons_append, List.append_eq] at h ⊢
    by_cases hm : m = n
    · rw [if_pos hm] at h; cases h
    · rw [if_neg hm] at h ⊢
      rw [ih (Option.map_eq_none'.mp h) ks]
      cases hk : colIdxAux n ks with
      | none => simp
      | some j =>
        simp only [Option.map_some', List.length_cons]
        congr 1

theorem colIdxAux_append_self {n : String} {ms : List String}
    (h : colIdxAux n ms = none) :
    colIdxAux n (ms ++ [n]) = some ms.length := by
  rw [colIdxAux_append_of_none h]
  simp [colIdxAux]

theorem colIdxAux_append_of_some {n : String} :
    ∀ {ms : List String} {j : ℕ}, colIdxAux n ms = some j → ∀ ks : List String,
      colIdxAux n (ms ++ ks) = some j := by
  intro ms
  induction ms with
  | nil => intro j h; cases h
  | cons m ms ih =>
    intro j h ks
    simp only [colIdxAux, List.cons_append, List.append_eq] at h ⊢
    by_cases hm : m = n
    · rw [if_pos hm] at h ⊢
      exact h
    · rw [if_neg hm] at h ⊢
      cases hj : colIdxAux n ms with
      | none => rw [hj] at h; cases h
      | some j' =>
        rw [hj] at h
        rw [ih hj ks]
        exact h

theorem mem_zipWith_decomp {α β γ : Type} {f : α → β → γ} {x : γ} :
    ∀ {as : List α} {bs : List β},
      x ∈ List.zipWith f as bs → ∃ a b, a ∈ as ∧ b ∈ bs ∧ x = f a b := by
  intro as
  induction as with
  | nil => intro bs h; cases h
  | cons a as ih =>
    intro bs h
    cases bs with
    | nil => cases h
    | cons b bs =>
      rcases List.mem_cons.mp h with h | h
      · exact ⟨a, b, List.mem_cons_self .., List.mem_cons_self .., h⟩
      · obtain ⟨a', b', ha, hb, hx⟩ := ih h
        exact ⟨a', b', List.mem_cons_of_mem _ ha, List.mem_cons_of_mem _ hb, hx⟩

theorem map_zipWith_of_mem {α β γ : Type} {f : α → β → α} {g : α → γ} :
    ∀ {rows : List α} {vs : List β},
      vs.length = rows.length → (∀ r ∈ rows, ∀ v, g (f r v) = g r) →
      (List.zipWith f rows vs).map g = rows.map g := by
  intro rows
  induction rows with
  | nil => intro vs _ _; simp
  | cons r rows ih =>
    intro vs hlen hg
    cases vs with
    | nil => simp at hlen
    | cons v vs =>
      simp only [List.zipWith_cons_cons, List.map_cons]
      rw [hg r (List.mem_cons_self ..) v,
        ih (by simpa using hlen) (fun r' hr' => hg r' (List.mem_cons_of_mem _ hr'))]

theorem getD_set_self {l : List CellVal} {j : ℕ} {v d : CellVal}
    (h : j < l.length) : (l.set j v).getD j d = v := by
  simp [List.getD, h]

theorem getD_append_len {l : List CellVal} {v d : CellVal} :
    (l ++ [v]).getD l.length d = v := by
  simp [List.getD]

theorem map_getD_zipWith_set {j : ℕ} {d : CellVal} :
    ∀ {rows : List (List CellVal)} {vs : List CellVal},
      vs.length = rows.length → (∀ r ∈ rows, j < r.length) →
      (List.zipWith (fun r v => r.set j v) rows vs).map (fun r => r.getD j d) = vs := by
  intro rows
  induction rows with
  | nil =>
    intro vs hlen _
    obtain rfl : vs = [] := List.length_eq_zero.mp (by simpa using hlen)
    simp
  | cons r rows ih =>
    intro vs hlen hj
    cases vs with
    | nil => simp at hlen
    | cons v vs =>
      simp only [List.zipWith_cons_cons, List.map_cons]
      rw [getD_set_self (hj r (List.mem_cons_self ..)),
        ih (by simpa using hlen) (fun r' hr' => hj r' (List.mem_cons_of_mem _ hr'))]

theorem map_getD_zipWith_append {L : ℕ} {d : CellVal} :
    ∀ {rows : List (List CellVal)} {vs : List CellVal},
      vs.length = rows.length → (∀ r ∈ rows, r.length = L) →
      (List.zipWith (fun r v => r ++ [v]) rows vs).map (fun r => r.getD L d) = vs := by
  intro rows
  induction rows with
  | nil =>
    intro vs hlen _
    obtain rfl : vs = [] := List.length_eq_zero.mp (by simpa using hlen)
    simp
  | cons r rows ih =>
    intro vs hlen hL
    cases vs with
    | nil => simp at hlen
    | cons v vs =>
      have hr : r.length = L := hL r (List.mem_cons_self ..)
      simp only [List.zipWith_cons_cons, List.map_cons]
      rw [show (r ++ [v]).getD L d = v from by rw [← hr]; exact getD_append_len,
        ih (by simpa using hlen) (fun r' hr' => hL r' (List.mem_cons_of_mem _ hr'))]

theorem setCol_names_of_mem {df : PDF} {n : String} (vs : List CellVal)
    (h : n ∈ df.names) : (df.setCol n vs).names = df.names := by
  unfold PDF.setCol PDF.colIdx
  cases hj : colIdxAux n df.names with
  | some j => rfl
  | none => exact absurd (colIdxAux_eq_none_iff.mp hj) (by simp [h])

theorem setCol_names_of_not_mem {df : PDF} {n : String} (vs : List CellVal)
    (h : n ∉ df.names) : (df.setCol n vs).names = df.names ++ [n] := by
  unfold PDF.setCol PDF.colIdx
  rw [colIdxAux_eq_none_iff.mpr h]

theorem mem_setCol_names {df : PDF} {n m : String} (vs : List CellVal)
    (h : m ∈ df.names) : m ∈ (df.setCol n vs).names := by
  by_cases hn : n ∈ df.names
  · rw [setCol_names_of_mem vs hn]; exact h
  · rw [setCol_names_of_not_mem vs hn]; exact List.mem_append_left _ h

theorem self_mem_setCol_names (df : PDF) (n : String) (vs : List CellVal) :
    n ∈ (df.setCol n vs).names := by
  by_cases hn : n ∈ df.names
  · rw [setCol_names_of_mem vs hn]; exact hn
  · rw [setCol_names_of_not_mem vs hn]; simp

theorem mem_names_of_setCol {df : PDF} {n m : String} {vs : List CellVal}
    (h : m ∈ (df.setCol n vs).names) : m ∈ df.names ∨ m = n := by
  by_cases hn : n ∈ df.names
  · rw [setCol_names_of_mem vs hn] at h; exact Or.inl h
  · rw [setCol_names_of_not_mem vs hn] at h
    simpa using h

theorem setCol_rows_length {df : PDF} {n : String} {vs : List CellVal}
    (h : vs.length = df.rows.length) :
    (df.setCol n vs).rows.length = df.rows.length := by
  unfold PDF.setCol
  cases df.colIdx n <;> simp [List.length_zipWith, h]

theorem setCol_WF {df : PDF} {n : String} {vs : List CellVal} (hWF : df.WF)
    (h : vs.length = df.rows.length) : (df.setCol n vs).WF := by
  unfold PDF.setCol PDF.colIdx
  cases hj : colIdxAux n df.names with
  | some j =>
    intro r hr
    obtain ⟨r', v, hr', _, rfl⟩ := mem_zipWith_decomp hr
    simpa using hWF r' hr'
  | none =>
    intro r hr
    obtain ⟨r', v, hr', _, rfl⟩ := mem_zipWith_decomp hr
    simp [hWF r' hr']

theorem getCol_length {df : PDF} {n : String} (h : n ∈ df.names) :
    (df.getCol n).length = df.rows.length := by
  unfold PDF.getCol PDF.colIdx
  cases hj : colIdxAux n df.names with
  | some j => simp
  | none => exact absurd (colIdxAux_eq_none_iff.mp hj) (by simp [h])

theorem getCol_setCol_self {df : PDF} {n : String} {vs : List CellVal}
    (hWF : df.WF) (h : vs.length = df.rows.length) :
    (df.setCol n vs).getCol n = vs := by
  unfold PDF.setCol PDF.getCol PDF.colIdx
  cases hj : colIdxAux n df.names with
  | some j =>
    simp only [hj]
    exact map_getD_zipWith_set h
      (fun r hr => by rw [hWF r hr]; exact colIdxAux_lt hj)
  | none =>
    simp only [colIdxAux_append_self hj]
    exact map_getD_zipWith_append h (fun r hr => hWF r hr)

theorem getCol_setCol_ne {df : PDF} {n n' : String} {vs : List CellVal}
    (hne : n' ≠ n) (hWF : df.WF) (h : vs.length = df.rows.length) :
    (df.setCol n vs).getCol n' = df.getCol n' := by
  unfold PDF.setCol PDF.getCol PDF.colIdx
  cases hj : colIdxAux n df.names with
  | some j =>
    simp only
    cases hj' : colIdxAux n' df.names with
    | none => rfl
    | some j' =>
      have hjj : j' ≠ j := by
        intro hcon
        apply hne
        rw [← colIdxAux_getD hj', hcon, colIdxAux_getD hj]
      exact map_zipWith_of_mem h (fun r _ v => by
        simp [List.getD, List.getElem?_set_ne (Ne.symm hjj)])
  | none =>
    simp only
    cases hj' : colIdxAux n' df.names with
    | none =>
      rw [colIdxAux_append_of_none hj' [n],
        show colIdxAux n' [n] = none from colIdxAux_eq_none_iff.mpr (by simp [hne])]
      rfl
    | some j' =>
      rw [colIdxAux_append_of_some hj' [n]]
      exact map_zipWith_of_mem h (fun r hr v => by
        have hlt : j' < r.length := by rw [hWF r hr]; exact colIdxAux_lt hj'
        simp [List.getD, List.getElem?_append_left hlt])

theorem sortRowsByDate_names (df : PDF) : (sortRowsByDate df).names = df.names := by
  unfold sortRowsByDate
  cases df.colIdx "date" <;> rfl

theorem sortRowsByDate_rows_perm (df : PDF) : List.Perm (sortRowsByDate df).rows df.rows := by
  unfold sortRowsByDate
  cases df.colIdx "date" with
  | none => rfl
  | some j => exact List.perm_insertionSort (pdfRowLE j) df.rows

theorem sortRowsByDate_WF {df : PDF} (hWF : df.WF) : (sortRowsByDate df).WF := by
  intro r hr
  rw [sortRowsByDate_names]
  exact hWF r ((sortRowsByDate_rows_perm df).mem_iff.mp hr)

theorem sortRowsByDate_length (df : PDF) :
    (sortRowsByDate df).rows.length = df.rows.length :=
  (sortRowsByDate_rows_perm df).length_eq

theorem hasCol_iff_mem {df : PDF} {n : String} : df.hasCol n = true ↔ n ∈ df.names := by
  simp [PDF.hasCol]

theorem trimNames_WF {df : PDF} (h : df.WF) : (trimNames df).WF := by
  intro r hr
  unfold trimNames
  simp only [List.length_map]
  exact h r hr

theorem coerceDates_names {p : Pandas} {df : PDF} (h : "date" ∈ df.names) :
    (coerceDates p df).names = df.names := by
  unfold coerceDates
  split
  · rfl
  · exact setCol_names_of_mem _ h

theorem coerceDates_WF {p : Pandas} {df : PDF} (h : "date" ∈ df.names)
    (hWF : df.WF) : (coerceDates p df).WF := by
  unfold coerceDates
  split
  · exact hWF
  · exact setCol_WF hWF (by rw [List.length_map]; exact getCol_length h)

theorem coerceDates_length {p : Pandas} {df : PDF} (h : "date" ∈ df.names) :
    (coerceDates p df).rows.length = df.rows.length := by
  unfold coerceDates
  split
  · rfl
  · exact setCol_rows_length (by rw [List.length_map]; exact getCol_length h)

theorem addActual_names_mem {df : PDF} {m : String} (h : m ∈ df.names) :
    m ∈ (addActual df).names := by
  unfold addActual
  split
  · exact h
  · exact mem_setCol_names _ h

theorem addActual_names_inv {df : PDF} {m : String}
    (h : m ∈ (addActual df).names) : m ∈ df.names ∨ m = "actual" := by
  unfold addActual at h
  split at h
  · exact Or.inl h
  · exact mem_names_of_setCol h

theorem actual_mem_addActual (df : PDF) : "actual" ∈ (addActual df).names := by
  unfold addActual
  split
  · exact hasCol_iff_mem.mp (by assumption)
  · exact self_mem_setCol_names ..

theorem addActual_WF {df : PDF} (hWF : df.WF) : (addActual df).WF := by
  unfold addActual
  split
  · exact hWF
  · exact setCol_WF hWF (by simp)

theorem addActual_length (df : PDF) :
    (addActual df).rows.length = df.rows.length := by
  unfold addActual
  split
  · rfl
  · exact setCol_rows_length (by simp)

theorem getCol_addActual_ne {df : PDF} {n' : String} (hne : n' ≠ "actual")
    (hWF : df.WF) : (addActual df).getCol n' = df.getCol n' := by
  unfold addActual
  split
  · rfl
  · exact getCol_setCol_ne hne hWF (by simp)

theorem addPi80_WF {df : PDF} (hWF : df.WF) (hpm : "predicted_median" ∈ df.names) :
    (addPi80 df).WF := by
  unfold addPi80
  split
  · exact hWF
  · have h1 : ((df.getCol "predicted_median").map (cellSubW (3 / 2))).length =
        df.rows.length := by rw [List.length_map]; exact getCol_length hpm
    have hWF1 : (df.setCol "pi80_low"
        ((df.getCol "predicted_median").map (cellSubW (3 / 2)))).WF :=
      setCol_WF hWF h1
    refine setCol_WF hWF1 ?_
    rw [List.length_map, getCol_length (mem_setCol_names _ hpm)]

theorem addPi80_length {df : PDF} (hpm : "predicted_median" ∈ df.names) :
    (addPi80 df).rows.length = df.rows.length := by
  unfold addPi80
  split
  · rfl
  · have h1 : ((df.getCol "predicted_median").map (cellSubW (3 / 2))).length =
        df.rows.length := by rw [List.length_map]; exact getCol_length hpm
    rw [setCol_rows_length
      (by rw [List.length_map]; exact getCol_length (mem_setCol_names _ hpm)),
      setCol_rows_length h1]

theorem setPair_spec {df : PDF} {lo hi pmn : String} (f g : CellVal → CellVal)
    (hWF : df.WF) (hpm : pmn ∈ df.names)
    (hlh : lo ≠ hi) (hpl : pmn ≠ lo) (hph : pmn ≠ hi) :
    ((df.setCol lo ((df.getCol pmn).map f)).setCol hi
        (((df.setCol lo ((df.getCol pmn).map f)).getCol pmn).map g)).getCol lo =
      (df.getCol pmn).map f ∧
    ((df.setCol lo ((df.getCol pmn).map f)).setCol hi
        (((df.setCol lo ((df.getCol pmn).map f)).getCol pmn).map g)).getCol hi =
      (df.getCol pmn).map g ∧
    ((df.setCol lo ((df.getCol pmn).map f)).setCol hi
        (((df.setCol lo ((df.getCol pmn).map f)).getCol pmn).map g)).getCol pmn =
      df.getCol pmn ∧
    ∀ n', n' ≠ lo → n' ≠ hi →
      ((df.setCol lo ((df.getCol pmn).map f)).setCol hi
          (((df.setCol lo ((df.getCol pmn).map f)).getCol pmn).map g)).getCol n' =
        df.getCol n' := by
  have h1 : ((df.getCol pmn).map f).length = df.rows.length := by
    rw [List.length_map]; exact getCol_length hpm
  have hWF1 : (df.setCol lo ((df.getCol pmn).map f)).WF := setCol_WF hWF h1
  have hpm1 : (df.setCol lo ((df.getCol pmn).map f)).getCol pmn = df.getCol pmn :=
    getCol_setCol_ne hpl hWF h1
  have h2 : (((df.setCol lo ((df.getCol pmn).map f)).getCol pmn).map g).length =
      (df.setCol lo ((df.getCol pmn).map f)).rows.length := by
    rw [List.length_map, getCol_length (mem_setCol_names _ hpm)]
  refine ⟨?_, ?_, ?_, ?_⟩
  · rw [getCol_setCol_ne hlh hWF1 h2, getCol_setCol_self hWF h1]
  · rw [getCol_setCol_self hWF1 h2, hpm1]
  · rw [getCol_setCol_ne hph hWF1 h2, hpm1]
  · intro n' hnl hnh
    rw [getCol_setCol_ne hnh hWF1 h2, getCol_setCol_ne hnl hWF h1]

theorem addPi80_of_present {df : PDF}
    (h : df.hasCol "pi80_low" = true ∧ df.hasCol "pi80_high" = true) :
    addPi80 df = df := by
  unfold addPi80
  rw [if_pos (by simp [h.1, h.2])]

theorem addPi80_spec {df : PDF} (hWF : df.WF) (hpm : "predicted_median" ∈ df.names)
    (habs : ¬(df.hasCol "pi80_low" = true ∧ df.hasCol "pi80_high" = true)) :
    (addPi80 df).getCol "pi80_low" =
      (df.getCol "predicted_median").map (cellSubW (3 / 2)) ∧
    (addPi80 df).getCol "pi80_high" =
      (df.getCol "predicted_median").map (cellAddW (3 / 2)) ∧
    (addPi80 df).getCol "predicted_median" = df.getCol "predicted_median" ∧
    ∀ n', n' ≠ "pi80_low" → n' ≠ "pi80_high" →
      (addPi80 df).getCol n' = df.getCol n' := by
  unfold addPi80
  rw [if_neg (by simpa using habs)]
  exact setPair_spec (cellSubW (3 / 2)) (cellAddW (3 / 2)) hWF hpm
    (by decide) (by decide) (by decide)

theorem addPi80_pm {df : PDF} (hWF : df.WF) (hpm : "predicted_median" ∈ df.names) :
    (addPi80 df).getCol "predicted_median" = df.getCol "predicted_median" := by
  by_cases h : df.hasCol "pi80_low" = true ∧ df.hasCol "pi80_high" = true
  · rw [addPi80_of_present h]
  · exact (addPi80_spec hWF hpm h).2.2.1

theorem addPi80_names_mem {df : PDF} {m : String} (h : m ∈ df.names) :
    m ∈ (addPi80 df).names := by
  unfold addPi80
  split
  · exact h
  · exact mem_setCol_names _ (mem_setCol_names _ h)

theorem addPi80_names_inv {df : PDF} {m : String}
    (h : m ∈ (addPi80 df).names) :
    m ∈ df.names ∨ m = "pi80_low" ∨ m = "pi80_high" := by
  unfold addPi80 at h
  split at h
  · exact Or.inl h
  · rcases mem_names_of_setCol h with h | h
    · rcases mem_names_of_setCol h with h | h
      · exact Or.inl h
      · exact Or.inr (Or.inl h)
    · exact Or.inr (Or.inr h)

theorem pi80_mem_addPi80 (df : PDF) :
    "pi80_low" ∈ (addPi80 df).names ∧ "pi80_high" ∈ (addPi80 df).names := by
  unfold addPi80
  split
  · rename_i h
    simp only [Bool.and_eq_true] at h
    exact ⟨hasCol_iff_mem.mp h.1, hasCol_iff_mem.mp h.2⟩
  · exact ⟨mem_setCol_names _ (self_mem_setCol_names ..), self_mem_setCol_names ..⟩

theorem addPi95_of_present {df : PDF}
    (h : df.hasCol "pi95_low" = true ∧ df.hasCol "pi95_high" = true) :
    addPi95 df = df := by
  unfold addPi95
  rw [if_pos (by simp [h.1, h.2])]

theorem addPi95_spec {df : PDF} (hWF : df.WF) (hpm : "predicted_median" ∈ df.names)
    (habs : ¬(df.hasCol "pi95_low" = true ∧ df.hasCol "pi95_high" = true)) :
    (addPi95 df).getCol "pi95_low" =
      (df.getCol "predicted_median").map (cellSubW 3) ∧
    (addPi95 df).getCol "pi95_high" =
      (df.getCol "predicted_median").map (cellAddW 3) ∧
    (addPi95 df).getCol "predicted_median" = df.getCol "predicted_median" ∧
    ∀ n', n' ≠ "pi95_low" → n' ≠ "pi95_high" →
      (addPi95 df).getCol n' = df.getCol n' := by
  unfold addPi95
  rw [if_neg (by simpa using habs)]
  exact setPair_spec (cellSubW 3) (cellAddW 3) hWF hpm
    (by decide) (by decide) (by decide)

theorem addPi95_names_mem {df : PDF} {m : String} (h : m ∈ df.names) :
    m ∈ (addPi95 df).names := by
  unfold addPi95
  split
  · exact h
  · exact mem_setCol_names _ (mem_setCol_names _ h)

theorem addPi95_names_inv {df : PDF} {m : String}
    (h : m ∈ (addPi95 df).names) :
    m ∈ df.names ∨ m = "pi95_low" ∨ m = "pi95_high" := by
  unfold addPi95 at h
  split at h
  · exact Or.inl h
  · rcases mem_names_of_setCol h with h | h
    · rcases mem_names_of_setCol h with h | h
      · exact Or.inl h
      · exact Or.inr (Or.inl h)
    · exact Or.inr (Or.inr h)

theorem pi95_mem_addPi95 (df : PDF) :
    "pi95_low" ∈ (addPi95 df).names ∧ "pi95_high" ∈ (addPi95 df).names := by
  unfold addPi95
  split
  · rename_i h
    simp only [Bool.and_eq_true] at h
    exact ⟨hasCol_iff_mem.mp h.1, hasCol_iff_mem.mp h.2⟩
  · exact ⟨mem_setCol_names _ (self_mem_setCol_names ..), self_mem_setCol_names ..⟩

theorem addPi95_length {df : PDF} (hpm : "predicted_median" ∈ df.names) :
    (addPi95 df).rows.length = df.rows.length := by
  unfold addPi95
  split
  · rfl
  · have h1 : ((df.getCol "predicted_median").map (cellSubW 3)).length =
        df.rows.length := by rw [List.length_map]; exact getCol_length hpm
    rw [setCol_rows_length
      (by rw [List.length_map]; exact getCol_length (mem_setCol_names _ hpm)),
      setCol_rows_length h1]

theorem addPi80_WF' {df : PDF} (hWF : df.WF) (hpm : "predicted_median" ∈ df.names) :
    (addPi80 df).WF := addPi80_WF hWF hpm

theorem normalize_ok_of_guard {p : Pandas} {df : PDF}
    (h1 : "date" ∈ (trimNames df).names) (h2 : "predicted_median" ∈ (trimNames df).names) :
    normalize_forecast_df p df =
      .ok (addPi95 (addPi80 (addActual (sortRowsByDate (coerceDates p (trimNames df)))))) := by
  show (if "date" ∈ (trimNames df).names ∧ "predicted_median" ∈ (trimNames df).names
      then Except.ok (addPi95 (addPi80 (addActual (sortRowsByDate (coerceDates p (trimNames df))))))
      else Except.error LoadError.missingRequiredColumnError) = _
  rw [if_pos ⟨h1, h2⟩]

theorem normalize_ok_inv {p : Pandas} {df out : PDF}
    (h : normalize_forecast_df p df = .ok out) :
    out = addPi95 (addPi80 (addActual (sortRowsByDate (coerceDates p (trimNames df))))) ∧
      "date" ∈ (trimNames df).names ∧ "predicted_median" ∈ (trimNames df).names := by
  by_cases hg : "date" ∈ (trimNames df).names ∧ "predicted_median" ∈ (trimNames df).names
  · rw [normalize_ok_of_guard hg.1 hg.2] at h
    exact ⟨(Except.ok.inj h).symm, hg⟩
  · have he : normalize_forecast_df p df = .error .missingRequiredColumnError := by
      show (if "date" ∈ (trimNames df).names ∧ "predicted_median" ∈ (trimNames df).names
          then Except.ok (addPi95 (addPi80 (addActual (sortRowsByDate (coerceDates p (trimNames df))))))
          else Except.error LoadError.missingRequiredColumnError) = _
      rw [if_neg hg]
    rw [he] at h
    cases h

theorem normalize_error_of_guard {p : Pandas} {df : PDF}
    (hg : ¬("date" ∈ (trimNames df).names ∧ "predicted_median" ∈ (trimNames df).names)) :
    normalize_forecast_df p df = .error .missingRequiredColumnError := by
  show (if "date" ∈ (trimNames df).names ∧ "predicted_median" ∈ (trimNames df).names
      then Except.ok (addPi95 (addPi80 (addActual (sortRowsByDate (coerceDates p (trimNames df))))))
      else Except.error LoadError.missingRequiredColumnError) = _
  rw [if_neg hg]

theorem normalize_length {p : Pandas} {df out : PDF}
    (h : normalize_forecast_df p df = .ok out) :
    out.rows.length = df.rows.length := by
  obtain ⟨rfl, h1, h2⟩ := normalize_ok_inv h
  have hpmA : "predicted_median" ∈ (coerceDates p (trimNames df)).names := by
    rw [coerceDates_names h1]; exact h2
  have hpmB : "predicted_median" ∈ (sortRowsByDate (coerceDates p (trimNames df))).names := by
    rw [sortRowsByDate_names]; exact hpmA
  have hpmC : "predicted_median" ∈ (addActual (sortRowsByDate (coerceDates p (trimNames df)))).names :=
    addActual_names_mem hpmB
  have hpmD : "predicted_median" ∈ (addPi80 (addActual (sortRowsByDate (coerceDates p (trimNames df))))).names :=
    addPi80_names_mem hpmC
  rw [addPi95_length hpmD, addPi80_length hpmC, addActual_length,
    sortRowsByDate_length, coerceDates_length h1]
  rfl

theorem normalize_names {p : Pandas} {df out : PDF}
    (h : normalize_forecast_df p df = .ok out) :
    (∀ m ∈ (trimNames df).names, m ∈ out.names) ∧
      ∀ c ∈ canonicalCols, c ∈ out.names := by
  obtain ⟨rfl, h1, h2⟩ := normalize_ok_inv h
  have hmem : ∀ m ∈ (trimNames df).names,
      m ∈ (addPi95 (addPi80 (addActual (sortRowsByDate (coerceDates p (trimNames df)))))).names := by
    intro m hm
    refine addPi95_names_mem (addPi80_names_mem (addActual_names_mem ?_))
    rw [sortRowsByDate_names, coerceDates_names h1]
    exact hm
  refine ⟨hmem, ?_⟩
  intro c hc
  have hact : "actual" ∈ (addPi95 (addPi80 (addActual (sortRowsByDate (coerceDates p (trimNames df)))))).names :=
    addPi95_names_mem (addPi80_names_mem (actual_mem_addActual _))
  have h80 := pi80_mem_addPi80 (addActual (sortRowsByDate (coerceDates p (trimNames df))))
  have h95 := pi95_mem_addPi95 (addPi80 (addActual (sortRowsByDate (coerceDates p (trimNames df)))))
  simp only [canonicalCols, List.mem_cons, List.not_mem_nil, or_false] at hc
  rcases hc with rfl | rfl | rfl | rfl | rfl | rfl | rfl
  · exact hmem _ h1
  · exact hmem _ h2
  · exact hact
  · exact addPi95_names_mem h80.1
  · exact addPi95_names_mem h80.2
  · exact h95.1
  · exact h95.2

theorem normalize_pi_spec {p : Pandas} {df out : PDF} (hWF : df.WF)
    (h : normalize_forecast_df p df = .ok out) :
    (¬("pi80_low" ∈ (trimNames df).names ∧ "pi80_high" ∈ (trimNames df).names) →
      out.getCol "pi80_low" = (out.getCol "predicted_median").map (cellSubW (3 / 2)) ∧
      out.getCol "pi80_high" = (out.getCol "predicted_median").map (cellAddW (3 / 2))) ∧
    (¬("pi95_low" ∈ (trimNames df).names ∧ "pi95_high" ∈ (trimNames df).names) →
      out.getCol "pi95_low" = (out.getCol "predicted_median").map (cellSubW 3) ∧
      out.getCol "pi95_high" = (out.getCol "predicted_median").map (cellAddW 3)) := by
  obtain ⟨rfl, h1, h2⟩ := normalize_ok_inv h
  have hWF1 : (trimNames df).WF := trimNames_WF hWF
  have hWFA : (coerceDates p (trimNames df)).WF := coerceDates_WF h1 hWF1
  have hWFB : (sortRowsByDate (coerceDates p (trimNames df))).WF := sortRowsByDate_WF hWFA
  have hWFC : (addActual (sortRowsByDate (coerceDates p (trimNames df)))).WF := addActual_WF hWFB
  have hpmC : "predicted_median" ∈ (addActual (sortRowsByDate (coerceDates p (trimNames df)))).names := by
    refine addActual_names_mem ?_
    rw [sortRowsByDate_names, coerceDates_names h1]
    exact h2
  have hWFD : (addPi80 (addActual (sortRowsByDate (coerceDates p (trimNames df))))).WF :=
    addPi80_WF hWFC hpmC
  have hpmD : "predicted_median" ∈ (addPi80 (addActual (sortRowsByDate (coerceDates p (trimNames df))))).names :=
    addPi80_names_mem hpmC
  have hCnames : ∀ m : String, m ≠ "actual" →
      (m ∈ (addActual (sortRowsByDate (coerceDates p (trimNames df)))).names ↔
        m ∈ (trimNames df).names) := by
    intro m hm
    constructor
    · intro hmem
      rcases addActual_names_inv hmem with hmem | hmem
      · rw [sortRowsByDate_names, coerceDates_names h1] at hmem
        exact hmem
      · exact absurd hmem hm
    · intro hmem
      refine addActual_names_mem ?_
      rw [sortRowsByDate_names, coerceDates_names h1]
      exact hmem
  constructor
  · intro habs
    have habsC : ¬((addActual (sortRowsByDate (coerceDates p (trimNames df)))).hasCol "pi80_low" = true ∧
        (addActual (sortRowsByDate (coerceDates p (trimNames df)))).hasCol "pi80_high" = true) := by
      rw [hasCol_iff_mem, hasCol_iff_mem, hCnames _ (by decide), hCnames _ (by decide)]
      exact habs
    obtain ⟨hlo, hhi, hpm, _⟩ := addPi80_spec hWFC hpmC habsC
    by_cases h95 : (addPi80 (addActual (sortRowsByDate (coerceDates p (trimNames df))))).hasCol "pi95_low" = true ∧
        (addPi80 (addActual (sortRowsByDate (coerceDates p (trimNames df))))).hasCol "pi95_high" = true
    · rw [addPi95_of_present h95, hlo, hhi, hpm]
      exact ⟨rfl, rfl⟩
    · obtain ⟨_, _, hpm95, hother⟩ := addPi95_spec hWFD hpmD h95
      rw [hother "pi80_low" (by decide) (by decide),
        hother "pi80_high" (by decide) (by decide), hpm95, hlo, hhi, hpm]
      exact ⟨rfl, rfl⟩
  · intro habs
    have hDnames : ∀ m : String, m ≠ "actual" → m ≠ "pi80_low" → m ≠ "pi80_high" →
        (m ∈ (addPi80 (addActual (sortRowsByDate (coerceDates p (trimNames df))))).names ↔
          m ∈ (trimNames df).names) := by
      intro m hma hml hmh
      constructor
      · intro hmem
        rcases addPi80_names_inv hmem with hmem | hmem | hmem
        · exact (hCnames m hma).mp hmem
        · exact absurd hmem hml
        · exact absurd hmem hmh
      · intro hmem
        exact addPi80_names_mem ((hCnames m hma).mpr hmem)
    have habsD : ¬((addPi80 (addActual (sortRowsByDate (coerceDates p (trimNames df))))).hasCol "pi95_low" = true ∧
        (addPi80 (addActual (sortRowsByDate (coerceDates p (trimNames df))))).hasCol "pi95_high" = true) := by
      rw [hasCol_iff_mem, hasCol_iff_mem,
        hDnames _ (by decide) (by decide) (by decide),
        hDnames _ (by decide) (by decide) (by decide)]
      exact habs
    obtain ⟨hlo, hhi, hpm, _⟩ := addPi95_spec hWFD hpmD habsD
    rw [hlo, hhi, hpm]
    exact ⟨rfl, rfl⟩

theorem normalize_ok_normOut {p : Pandas} {df : PDF}
    (h1 : "date" ∈ (trimNames df).names)
    (h2 : "predicted_median" ∈ (trimNames df).names) :
    normalize_forecast_df p df = .ok (normOut p df) := by
  unfold normOut
  rw [normalize_ok_of_guard h1 h2]

theorem absErr_none_left (x : Option ℚ) : absErr none x = none := by
  cases x <;> rfl

theorem absErr_none_right (x : Option ℚ) : absErr x none = none := by
  cases x <;> rfl

theorem getD_errSeries : ∀ (a p : List (Option ℚ)) (i : ℕ),
    (errSeries a p).getD i none = absErr (a.getD i none) (p.getD i none)
  | [], p, i => by simp [errSeries, absErr_none_left]
  | x :: a, [], i => by simp [errSeries, absErr_none_right]
  | x :: a, y :: p, 0 => by simp [errSeries]
  | x :: a, y :: p, i + 1 => by
    simp only [errSeries, List.zipWith_cons_cons, List.getD_cons_succ]
    exact getD_errSeries a p i

theorem rollingMean_getElem {l : List (Option ℚ)} {i : ℕ} (h : i < l.length) :
    (rollingMean l)[i]? = some (nanMean (rollWindow l i)) := by
  unfold rollingMean
  rw [List.getElem?_map, List.getElem?_range h]
  rfl

theorem rollWindow_suffix (l : List (Option ℚ)) (i : ℕ) :
    rollWindow l i <:+ l.take (i + 1) :=
  List.drop_suffix _ _

theorem rollWindow_length {l : List (Option ℚ)} {i : ℕ} (h : i < l.length) :
    (rollWindow l i).length = min 7 (i + 1) := by
  unfold rollWindow
  simp only [List.length_drop, List.length_take]
  omega

theorem rollWindow_map (f : Option ℚ → Option ℚ) (l : List (Option ℚ)) (i : ℕ) :
    rollWindow (l.map f) i = (rollWindow l i).map f := by
  unfold rollWindow
  rw [← List.map_take, ← List.map_drop]

theorem rowLE_refl (r : CanonRow) : rowLE r r := by
  unfold rowLE dateRowLE
  rcases r.date with _ | x <;> simp

theorem loadS2 : load_monthly_forecast P2 T2 = .ok [S2row, S2row] := by
  rw [load_monthly_eq (show chosenDateCol T2 = some T2date from by decide)
    (show chosenValueCol T2 = some T2cases from by decide)]
  have hvar : seriesVar (coercedSeries P2 T2cases) = some 0 := by
    rw [show coercedSeries P2 T2cases = [some 1, some 1] from by decide]
    unfold seriesVar sampleVar
    norm_num [List.reduceOption_cons_of_some, List.reduceOption_nil]
  have hfb : ∀ v : ℚ, seriesVar (coercedSeries P2 T2cases) = some v → v ≤ 0 := by
    intro v hv
    rw [hvar] at hv
    exact le_of_eq (Option.some.inj hv).symm
  have hw80 := pi80Width_fallback hfb
  have hw95 := pi95Width_fallback hfb
  rw [show actualSeries P2 T2 T2date.values.length = [none, none] from by decide]
  unfold monthlyRowsRaw
  rw [show coercedSeries P2 T2cases = [some 1, some 1] from by decide] at hw80 hw95 ⊢
  rw [show parseDates P2 T2date.values = [some 100, some 100] from by decide]
  simp only [zip3With, hw80, hw95, Option.map_some]
  simp only [List.filter, Option.isSome_some, sortRows, List.insertionSort,
    List.orderedInsert, if_pos (rowLE_refl _)]
  unfold S2row
  norm_num

theorem loadS4 : load_monthly_forecast P4 T4 = .ok [S4row0, S4row1] := by
  rw [load_monthly_eq (show chosenDateCol T4 = some T4date from by decide)
    (show chosenValueCol T4 = some T4cases from by decide)]
  rw [show actualSeries P4 T4 T4date.values.length = [none, none] from by decide]
  unfold monthlyRowsRaw
  rw [show coercedSeries P4 T4cases = [none, none] from by decide,
    show parseDates P4 T4date.values = [some 200, some 201] from by decide]
  simp only [zip3With, Option.map_none']
  simp only [List.filter, Option.isSome_some, sortRows, List.insertionSort,
    List.orderedInsert]
  rw [if_pos (show rowLE
      { date := some 200, predicted_median := none, actual := none,
        pi80_low := none, pi80_high := none, pi95_low := none, pi95_high := none }
      { date := some 201, predicted_median := none, actual := none,
        pi80_low := none, pi80_high := none, pi95_low := none, pi95_high := none }
    from by unfold rowLE dateRowLE; simp)]
  unfold S4row0 S4row1
  norm_num

theorem pi80Width_le_pi95Width (pm : List (Option ℚ)) :
    pi80Width pm ≤ pi95Width pm := by
  unfold pi80Width pi95Width
  cases seriesVar pm with
  | none => norm_num
  | some v =>
    show (if 0 < v then Real.sqrt (v : ℝ) else 1.5) ≤
      2 * (if 0 < v then Real.sqrt (v : ℝ) else 3)
    by_cases h0 : 0 < v
    · rw [if_pos h0, if_pos h0]
      have := Real.sqrt_nonneg ((v : ℚ) : ℝ)
      linarith
    · rw [if_neg h0, if_neg h0]
      norm_num

theorem parseDates_eq (p : Pandas) (vals : List String) : parseDates p vals =
    (if ((if (vals.map p.toDatetime).all (fun d => d.isNone)
          then vals.map (fun v => p.toDatetime (strTrim v ++ "-01"))
          else vals.map p.toDatetime).any (fun d => d.isNone))
      then vals.map p.toDatetime
      else (if (vals.map p.toDatetime).all (fun d => d.isNone)
          then vals.map (fun v => p.toDatetime (strTrim v ++ "-01"))
          else vals.map p.toDatetime)) := rfl

theorem parseDates_all_none {p : Pandas} {vals : List String}
    (h : ∀ v ∈ vals, p.toDatetime v = none ∧ p.toDatetime (strTrim v ++ "-01") = none) :
    ∀ x ∈ parseDates p vals, x = none := by
  intro x hx
  rw [parseDates_eq] at hx
  have h1 : ∀ y ∈ vals.map p.toDatetime, y = none := by
    intro y hy
    obtain ⟨v, hv, rfl⟩ := List.mem_map.mp hy
    exact (h v hv).1
  have h2 : ∀ y ∈ vals.map (fun v => p.toDatetime (strTrim v ++ "-01")), y = none := by
    intro y hy
    obtain ⟨v, hv, rfl⟩ := List.mem_map.mp hy
    exact (h v hv).2
  split at hx
  all_goals try split at hx
  all_goals first | exact h1 x hx | exact h2 x hx

theorem parseDates_of_all_some {p : Pandas} {vals : List String}
    (h : ∀ v ∈ vals, (p.toDatetime v).isSome = true) :
    parseDates p vals = vals.map p.toDatetime := by
  cases vals with
  | nil => rfl
  | cons v vs =>
    rw [parseDates_eq]
    obtain ⟨a, ha⟩ := Option.isSome_iff_exists.mp (h v (List.mem_cons_self ..))
    have hall : ((v :: vs).map p.toDatetime).all (fun d => d.isNone) = false := by
      simp only [List.map_cons, List.all_cons, ha]
      simp
    have hany : ((v :: vs).map p.toDatetime).any (fun d => d.isNone) = false := by
      rw [List.any_eq_false]
      intro y hy
      obtain ⟨u, hu, rfl⟩ := List.mem_map.mp hy
      obtain ⟨b, hb⟩ := Option.isSome_iff_exists.mp (h u hu)
      rw [hb]
      simp
    simp only [hall, hany]
    simp

theorem mem_candidateCols_sub {t : RawTable} {c : RawColumn}
    (h : c ∈ candidateCols t) : c ∈ t.cols := by
  unfold candidateCols numericCols numericLikeCols at h
  rcases List.mem_append.mp h with h | h <;> exact List.mem_of_mem_filter h

theorem chosenValueCol_mem {t : RawTable} {vc : RawColumn}
    (h : chosenValueCol t = some vc) : vc ∈ t.cols := by
  unfold chosenValueCol at h
  cases hc : candidateCols t with
  | nil => rw [hc] at h; cases h
  | cons c0 rest =>
    rw [hc] at h
    obtain rfl := Option.some.inj h
    cases hp : preferredCols t with
    | nil =>
      rw [List.headD_nil]
      exact mem_candidateCols_sub (hc ▸ List.mem_cons_self ..)
    | cons q qs =>
      rw [List.headD_cons]
      have hq : q ∈ (candidateCols t).filter kwMatch := by
        rw [show (candidateCols t).filter kwMatch = q :: qs from hp]
        exact List.mem_cons_self ..
      exact mem_candidateCols_sub (List.mem_of_mem_filter hq)

theorem chosenDateCol_mem {t : RawTable} {dc : RawColumn}
    (h : chosenDateCol t = some dc) : dc ∈ t.cols := by
  unfold chosenDateCol at h
  cases hc : candidateCols t with
  | nil => rw [hc] at h; cases h
  | cons c0 rest =>
    rw [hc] at h
    obtain rfl := Option.some.inj h
    cases hd : dateLikeCols t with
    | cons d ds =>
      rw [List.headD_cons]
      have hd' : d ∈ t.cols.filter isDateLike := by
        rw [show t.cols.filter isDateLike = d :: ds from hd]
        exact List.mem_cons_self ..
      exact List.mem_of_mem_filter hd'
    | nil =>
      rw [List.headD_nil]
      have hc0 : c0 ∈ t.cols := mem_candidateCols_sub (hc ▸ List.mem_cons_self ..)
      cases hcols : t.cols with
      | nil => rw [hcols] at hc0; cases hc0
      | cons x xs =>
        rw [List.headD_cons]
        exact List.mem_cons_self ..

theorem actualSeries_length {p : Pandas} {t : RawTable} {dc : RawColumn}
    (hA : t.Aligned) (hdc : dc ∈ t.cols) :
    (actualSeries p t dc.values.length).length = dc.values.length := by
  unfold actualSeries
  cases hc : actualCols t with
  | nil => exact List.length_replicate ..
  | cons a rest =>
    have ha : a ∈ t.cols := by
      have ha' : a ∈ actualCols t := by rw [hc]; exact List.mem_cons_self ..
      exact List.mem_of_mem_filter ha'
    unfold coercedSeries
    rw [List.length_map]
    exact hA a ha dc hdc

theorem loadS3 : load_monthly_forecast P3 T3 = .ok [] := by
  rw [load_monthly_eq (show chosenDateCol T3 = some T3date from by decide)
    (show chosenValueCol T3 = some T3cases from by decide)]
  have hall : ∀ x ∈ parseDates P3 T3date.values, x = none :=
    parseDates_all_none (by decide)
  have hfil : (monthlyRowsRaw P3 T3date T3cases
      (actualSeries P3 T3 T3date.values.length)).filter (fun r => r.date.isSome) = [] := by
    rw [List.filter_eq_nil]
    intro r hr
    obtain ⟨d, m, a, hdm, _, _, rfl⟩ := date_mem_zip3With_monthlyRow hr
    simp [hall d hdm]
  rw [hfil]
  rfl

theorem getD_map_of_lt {α β : Type} {l : List α} {f : α → β} {i : ℕ}
    (h : i < l.length) (d : β) (d' : α) : (l.map f).getD i d = f (l.getD i d') := by
  simp [List.getD, List.getElem?_map, List.getElem?_eq_getElem h]

/-! Claim theorems. -/

/-- Claim C1 (corrected).  In the monthly loader, when the `pi95` bound
columns are absent (the fresh `out` frame never has them), each row's 95%
bounds are `predicted_median ∓ w` for one table-wide width `w`
(`pi95Width`), and `w = 2·σ` when the sample standard deviation `σ` of the
coerced prediction series is defined and positive — but in the fallback case
`w = 2 · 3.0 = 6.0`, not the claimed fixed width `3.0` (app.py line 157
multiplies the fallback constant by 2 as well).  In the explicit-schema
normalizer, a synthesized 95% pair always uses the fixed width `3.0` with no
standard deviation involved (data_loader.py lines 52-55). -/
theorem c1_pi95_width_spec :
    (∀ (p : Pandas) (t : RawTable) (dc vc : RawColumn) (rows : List CanonRow),
      chosenDateCol t = some dc → chosenValueCol t = some vc →
      load_monthly_forecast p t = .ok rows → ∀ r ∈ rows,
      r.pi95_low = r.predicted_median.map
        (fun q : ℚ => (q : ℝ) - pi95Width (coercedSeries p vc)) ∧
      r.pi95_high = r.predicted_median.map
        (fun q : ℚ => (q : ℝ) + pi95Width (coercedSeries p vc))) ∧
    (∀ (pm : List (Option ℚ)) (v : ℚ), seriesVar pm = some v → 0 < v →
      pi95Width pm = 2 * Real.sqrt (v : ℝ)) ∧
    (∀ pm : List (Option ℚ), (∀ v : ℚ, seriesVar pm = some v → v ≤ 0) →
      pi95Width pm = 6) ∧
    (∀ (p : Pandas) (df out : PDF), df.WF → normalize_forecast_df p df = .ok out →
      ¬("pi95_low" ∈ (trimNames df).names ∧ "pi95_high" ∈ (trimNames df).names) →
      out.getCol "pi95_low" = (out.getCol "predicted_median").map (cellSubW 3) ∧
      out.getCol "pi95_high" = (out.getCol "predicted_median").map (cellAddW 3)) := by
  refine ⟨?_, fun pm v h hv => pi95Width_of_var_pos h hv,
    fun pm h => pi95Width_fallback h, ?_⟩
  · intro p t dc vc rows hd hv hok r hr
    rw [load_monthly_eq hd hv] at hok
    obtain rfl : rows = sortRows ((monthlyRowsRaw p dc vc
        (actualSeries p t dc.values.length)).filter (fun r => r.date.isSome)) :=
      (Except.ok.inj hok).symm
    have hr' : r ∈ monthlyRowsRaw p dc vc (actualSeries p t dc.values.length) :=
      List.mem_of_mem_filter (mem_sortRows.mp hr)
    obtain ⟨d, m, a, _, _, _, rfl⟩ := date_mem_zip3With_monthlyRow hr'
    exact ⟨rfl, rfl⟩
  · intro p df out hWF hok habs
    exact (normalize_pi_spec hWF hok).2 habs

/-- Claim C1 counterexample.  On the one-row table `T1` the sample standard
deviation is undefined (a single prediction), so by the claim the 95% bounds
should be `predicted_median ∓ 3.0 = 10 ∓ 3`; the loader instead produces
`10 ∓ 6`: `pi95_low = 4 ≠ 7` and `pi95_high = 16 ≠ 13`. -/
theorem c1_counterexample :
    load_monthly_forecast P1 T1 = .ok [S1row] ∧
    S1row.predicted_median = some 10 ∧
    S1row.pi95_low = some 4 ∧ S1row.pi95_high = some 16 ∧
    S1row.pi95_low ≠ some ((10 : ℝ) - 3) ∧
    S1row.pi95_high ≠ some ((10 : ℝ) + 3) := by
  refine ⟨loadS1, rfl, rfl, rfl, ?_, ?_⟩
  · simp only [S1row, ne_eq, Option.some.injEq]
    norm_num
  · simp only [S1row, ne_eq, Option.some.injEq]
    norm_num

/-- Claim C1 witness: the amended theorem instantiated on concrete runs —
the fallback branch on `T1` (width 6), the positive-variance branch on the
series `[0, 1, 2]` (variance 1, width `2·√1`), and the normalizer on the
frame `N1` (fixed width 3). -/
theorem c1_witness :
    chosenDateCol T1 = some T1month ∧ chosenValueCol T1 = some T1fc ∧
    load_monthly_forecast P1 T1 = .ok [S1row] ∧
    (S1row.pi95_low = S1row.predicted_median.map
        (fun q : ℚ => (q : ℝ) - pi95Width (coercedSeries P1 T1fc)) ∧
      S1row.pi95_high = S1row.predicted_median.map
        (fun q : ℚ => (q : ℝ) + pi95Width (coercedSeries P1 T1fc))) ∧
    pi95Width (coercedSeries P1 T1fc) = 6 ∧
    seriesVar [some 0, some 1, some 2] = some 1 ∧
    pi95Width [some 0, some 1, some 2] = 2 * Real.sqrt ((1 : ℚ) : ℝ) ∧
    normalize_forecast_df PN N1 = .ok (normOut PN N1) ∧
    (normOut PN N1).getCol "pi95_low" =
      ((normOut PN N1).getCol "predicted_median").map (cellSubW 3) := by
  have hv3 : seriesVar [some 0, some 1, some 2] = some 1 := by
    unfold seriesVar sampleVar
    norm_num [List.reduceOption_cons_of_some, List.reduceOption_nil]
  have hok : normalize_forecast_df PN N1 = .ok (normOut PN N1) :=
    normalize_ok_normOut (by decide) (by decide)
  refine ⟨by decide, by decide, loadS1,
    c1_pi95_width_spec.1 P1 T1 T1month T1fc [S1row] (by decide) (by decide)
      loadS1 S1row (by simp),
    ?_, hv3, c1_pi95_width_spec.2.1 _ 1 hv3 (by norm_num), hok,
    (c1_pi95_width_spec.2.2.2 PN N1 (normOut PN N1)
      (by unfold PDF.WF; decide) hok (by decide)).1⟩
  exact c1_pi95_width_spec.2.2.1 (coercedSeries P1 T1fc) (fun v hv => by
    rw [show seriesVar (coercedSeries P1 T1fc) = none from by decide] at hv
    cases hv)

/-- Claim C2 (corrected).  The monthly loader sorts by date but never
deduplicates: the output is nondecreasing in `date` (not strictly
increasing), and every pre-normalization row with a given resolvable date is
retained — the per-date row counts of the output equal those of the raw row
list, so duplicate dates survive (app.py line 161 has no duplicate
handling). -/
theorem c2_sorted_duplicates_kept :
    ∀ (p : Pandas) (t : RawTable) (dc vc : RawColumn) (rows : List CanonRow),
      chosenDateCol t = some dc → chosenValueCol t = some vc →
      load_monthly_forecast p t = .ok rows →
      rows.Sorted rowLE ∧
      ∀ d : ℤ, rows.countP (fun r => decide (r.date = some d)) =
        (monthlyRowsRaw p dc vc (actualSeries p t dc.values.length)).countP
          (fun r => decide (r.date = some d)) := by
  intro p t dc vc rows hd hv hok
  rw [load_monthly_eq hd hv] at hok
  obtain rfl : rows = sortRows ((monthlyRowsRaw p dc vc
      (actualSeries p t dc.values.length)).filter (fun r => r.date.isSome)) :=
    (Except.ok.inj hok).symm
  refine ⟨sorted_sortRows _, ?_⟩
  intro d
  rw [countP_sortRows, List.countP_filter]
  refine List.countP_congr ?_
  intro r _
  by_cases h : r.date = some d
  · simp [h]
  · simp [h]

/-- Claim C2 counterexample.  On the two-row table `T2`, both rows carry the
date `2025-01-01`: the loader returns both rows (sharing one date), not just
the first occurrence. -/
theorem c2_counterexample :
    load_monthly_forecast P2 T2 = .ok [S2row, S2row] ∧
    S2row.date = some 100 ∧
    (load_monthly_forecast P2 T2).map (fun rows => rows.length) = .ok 2 := by
  refine ⟨loadS2, rfl, ?_⟩
  rw [loadS2]
  rfl

/-- Claim C2 witness: the amended theorem instantiated on the duplicate-date
run `T2`, at date `100`. -/
theorem c2_witness :
    List.Sorted rowLE [S2row, S2row] ∧
    [S2row, S2row].countP (fun r => decide (r.date = some (100 : ℤ))) =
      (monthlyRowsRaw P2 T2date T2cases
        (actualSeries P2 T2 T2date.values.length)).countP
        (fun r => decide (r.date = some (100 : ℤ))) :=
  ⟨(c2_sorted_duplicates_kept P2 T2 T2date T2cases [S2row, S2row]
      (by decide) (by decide) loadS2).1,
   (c2_sorted_duplicates_kept P2 T2 T2date T2cases [S2row, S2row]
      (by decide) (by decide) loadS2).2 100⟩

/-- Claim C3 (corrected).  When no entry of the chosen date column resolves,
neither directly nor with `-01` appended, the monthly loader does not raise:
it returns an empty table (every row is dropped by
`dropna(subset=["date"])`, app.py line 161).  No `DateResolutionError`
exists anywhere in the code; no synthetic date axis is fabricated (the
comment at app.py line 132 is not implemented). -/
theorem c3_unresolvable_dates_returns_empty :
    ∀ (p : Pandas) (t : RawTable) (dc vc : RawColumn),
      chosenDateCol t = some dc → chosenValueCol t = some vc →
      (∀ v ∈ dc.values, p.toDatetime v = none ∧
        p.toDatetime (strTrim v ++ "-01") = none) →
      load_monthly_forecast p t = .ok [] := by
  intro p t dc vc hd hv hfail
  rw [load_monthly_eq hd hv]
  have hall := parseDates_all_none hfail
  have hfil : (monthlyRowsRaw p dc vc
      (actualSeries p t dc.values.length)).filter (fun r => r.date.isSome) = [] := by
    rw [List.filter_eq_nil]
    intro r hr
    obtain ⟨d, m, a, hdm, _, _, rfl⟩ := date_mem_zip3With_monthlyRow hr
    simp [hall d hdm]
  rw [hfil]
  rfl

/-- Claim C3 counterexample.  On `T3` (date column `["garbage"]`, value
column `["5"]`) no date resolves under either attempt, yet the loader
returns `.ok []` — an empty table, not a raised `DateResolutionError`. -/
theorem c3_counterexample :
    P3.toDatetime "garbage" = none ∧
    P3.toDatetime (strTrim "garbage" ++ "-01") = none ∧
    load_monthly_forecast P3 T3 = .ok [] ∧
    load_monthly_forecast P3 T3 ≠ .error .noNumericColumnError ∧
    load_monthly_forecast P3 T3 ≠ .error .missingRequiredColumnError := by
  refine ⟨rfl, rfl, loadS3, ?_, ?_⟩ <;> · rw [loadS3]; simp

/-- Claim C3 witness: the amended theorem instantiated on `T3`. -/
theorem c3_witness : load_monthly_forecast P3 T3 = .ok [] :=
  c3_unresolvable_dates_returns_empty P3 T3 T3date T3cases
    (by decide) (by decide) (by decide)

/-- Claim C4 (corrected).  Rows whose prediction fails numeric coercion are
NOT excluded: the monthly loader only drops rows with missing dates
(`dropna(subset=["date"])`, app.py line 161).  When every date resolves and
every prediction coerces to `NaN`, the loader returns a full-length table
whose `predicted_median` column is entirely `NaN`, raising no error. -/
theorem c4_nan_predictions_kept :
    ∀ (p : Pandas) (t : RawTable) (dc vc : RawColumn) (rows : List CanonRow),
      chosenDateCol t = some dc → chosenValueCol t = some vc →
      t.Aligned →
      (∀ v ∈ dc.values, (p.toDatetime v).isSome = true) →
      (∀ v ∈ vc.values, p.toNumeric v = none) →
      load_monthly_forecast p t = .ok rows →
      rows.length = dc.values.length ∧ ∀ r ∈ rows, r.predicted_median = none := by
  intro p t dc vc rows hd hv hA hdates hnum hok
  rw [load_monthly_eq hd hv] at hok
  obtain rfl : rows = sortRows ((monthlyRowsRaw p dc vc
      (actualSeries p t dc.values.length)).filter (fun r => r.date.isSome)) :=
    (Except.ok.inj hok).symm
  have hfull : (monthlyRowsRaw p dc vc
      (actualSeries p t dc.values.length)).filter (fun r => r.date.isSome) =
      monthlyRowsRaw p dc vc (actualSeries p t dc.values.length) := by
    rw [List.filter_eq_self]
    intro r hr
    obtain ⟨d, m, a, hdm, _, _, rfl⟩ := date_mem_zip3With_monthlyRow hr
    rw [parseDates_of_all_some hdates] at hdm
    obtain ⟨v, hv', rfl⟩ := List.mem_map.mp hdm
    exact hdates v hv'
  constructor
  · rw [length_sortRows, hfull]
    unfold monthlyRowsRaw
    rw [length_zip3With]
    rw [parseDates_of_all_some hdates]
    unfold coercedSeries
    rw [List.length_map, List.length_map,
      actualSeries_length hA (chosenDateCol_mem hd),
      hA vc (chosenValueCol_mem hv) dc (chosenDateCol_mem hd)]
    omega
  · intro r hr
    have hr' : r ∈ monthlyRowsRaw p dc vc (actualSeries p t dc.values.length) :=
      List.mem_of_mem_filter (mem_sortRows.mp hr)
    obtain ⟨d, m, a, _, hm, _, rfl⟩ := date_mem_zip3With_monthlyRow hr'
    obtain ⟨v, hv', rfl⟩ := List.mem_map.mp hm
    exact hnum v hv'

/-- Claim C4 counterexample.  On `T4` both dates resolve and both
predictions coerce to `NaN`; the loader returns a two-row table of `NaN`
predictions instead of raising any error. -/
theorem c4_counterexample :
    load_monthly_forecast P4 T4 = .ok [S4row0, S4row1] ∧
    S4row0.predicted_median = none ∧ S4row1.predicted_median = none ∧
    ([S4row0, S4row1] : List CanonRow) ≠ [] ∧
    load_monthly_forecast P4 T4 ≠ .error .noNumericColumnError ∧
    load_monthly_forecast P4 T4 ≠ .error .missingRequiredColumnError := by
  refine ⟨loadS4, rfl, rfl, by simp, ?_, ?_⟩ <;> · rw [loadS4]; simp

/-- Claim C4 witness: the amended theorem instantiated on `T4`. -/
theorem c4_witness :
    [S4row0, S4row1].length = T4date.values.length ∧
    ∀ r ∈ [S4row0, S4row1], r.predicted_median = none :=
  c4_nan_predictions_kept P4 T4 T4date T4cases [S4row0, S4row1]
    (by decide) (by decide) (by unfold RawTable.Aligned; decide)
    (by decide) (by decide) loadS4

/-- Claim C5 (corrected).  Every canonical column is present in the
explicit-schema normalizer's output, and every (trimmed) input column is
retained as well — the output does NOT have exactly the seven canonical
columns: extra input columns are carried through untouched
(data_loader.py never projects onto the canonical set).  The monthly
loader's fresh `out` frame, by contrast, has exactly the seven columns by
construction (app.py lines 137-159). -/
theorem c5_canonical_columns :
    ∀ (p : Pandas) (df out : PDF), normalize_forecast_df p df = .ok out →
      (∀ c ∈ canonicalCols, c ∈ out.names) ∧
      (∀ m ∈ df.names, strTrim m ∈ out.names) := by
  intro p df out h
  obtain ⟨hmem, hcanon⟩ := normalize_names h
  refine ⟨hcanon, ?_⟩
  intro m hm
  refine hmem _ ?_
  unfold trimNames
  exact List.mem_map_of_mem _ hm

/-- Claim C5 counterexample.  The frame `N2` carries a column `extra`
outside the canonical set; the normalizer's output retains it, so the
output's column set is not exactly the canonical seven. -/
theorem c5_counterexample :
    normalize_forecast_df PN N2 = .ok (normOut PN N2) ∧
    (normOut PN N2).names =
      ["date", "predicted_median", "extra", "actual",
       "pi80_low", "pi80_high", "pi95_low", "pi95_high"] ∧
    "extra" ∉ canonicalCols := by
  exact ⟨normalize_ok_normOut (by decide) (by decide), by decide, by decide⟩

/-- Claim C5 witness: the amended theorem instantiated on the minimal frame
`N1`. -/
theorem c5_witness :
    normalize_forecast_df PN N1 = .ok (normOut PN N1) ∧
    (∀ c ∈ canonicalCols, c ∈ (normOut PN N1).names) ∧
    (∀ m ∈ N1.names, strTrim m ∈ (normOut PN N1).names) := by
  have hok : normalize_forecast_df PN N1 = .ok (normOut PN N1) :=
    normalize_ok_normOut (by decide) (by decide)
  exact ⟨hok, (c5_canonical_columns PN N1 (normOut PN N1) hok).1,
    (c5_canonical_columns PN N1 (normOut PN N1) hok).2⟩

/-- Claim C6 (corrected).  The monthly loader does drop every row whose
date is unresolved (its output rows all carry a resolved date), but the
explicit-schema normalizer drops nothing: its output has exactly as many
rows as the input, so rows with unparseable (`NaT`) dates are retained
(data_loader.py lines 40-43 coerce and sort without any `dropna`). -/
theorem c6_null_dates :
    (∀ (p : Pandas) (t : RawTable) (rows : List CanonRow),
      load_monthly_forecast p t = .ok rows → ∀ r ∈ rows, r.date.isSome = true) ∧
    (∀ (p : Pandas) (df out : PDF), normalize_forecast_df p df = .ok out →
      out.rows.length = df.rows.length) := by
  constructor
  · intro p t rows hok r hr
    rcases hc : candidateCols t with _ | ⟨c0, rest⟩
    · rw [load_monthly_error hc] at hok
      cases hok
    · have hne : candidateCols t ≠ [] := by rw [hc]; simp
      obtain ⟨hds, hvs⟩ := chosen_some_of_candidates hne
      obtain ⟨dc, hd⟩ := Option.isSome_iff_exists.mp hds
      obtain ⟨vc, hv⟩ := Option.isSome_iff_exists.mp hvs
      rw [load_monthly_eq hd hv] at hok
      obtain rfl : rows = sortRows ((monthlyRowsRaw p dc vc
          (actualSeries p t dc.values.length)).filter (fun r => r.date.isSome)) :=
        (Except.ok.inj hok).symm
      have hh := mem_sortRows.mp hr
      have hp := List.of_mem_filter hh
      exact hp
  · intro p df out h
    exact normalize_length h

/-- Claim C6 counterexample.  On the frame `N3` the first row's date string
does not parse; the normalizer's output still has both rows, with the
`NaT`-dated row sorted last — a null date in the canonical output. -/
theorem c6_counterexample :
    normalize_forecast_df PN N3 = .ok (normOut PN N3) ∧
    (normOut PN N3).getCol "date" = [.dt (some 1), .dt none] ∧
    (normOut PN N3).rows.length = 2 := by
  exact ⟨normalize_ok_normOut (by decide) (by decide), by decide, by decide⟩

/-- Claim C6 witness: the monthly conjunct instantiated on the run `T1`
(its single output row has a resolved date), and the normalizer conjunct on
`N1` (row count preserved). -/
theorem c6_witness :
    S1row.date.isSome = true ∧
    (normOut PN N1).rows.length = N1.rows.length :=
  ⟨c6_null_dates.1 P1 T1 [S1row] loadS1 S1row (by simp),
   c6_null_dates.2 PN N1 (normOut PN N1) (normalize_ok_normOut (by decide) (by decide))⟩

/-- Claim C7 (corrected).  For rows whose `predicted_median` is an actual
number, both loaders' synthesized intervals satisfy the claimed nesting
chain.  The claim fails as stated because rows with `NaN`
`predicted_median` remain in the canonical table (claim C4) and their
synthesized bounds are all `NaN`, where every float comparison is false
(`optLE`/`cellLE` model NumPy comparison semantics: a comparison holds only
between actual numbers). -/
theorem c7_interval_nesting :
    (∀ (p : Pandas) (t : RawTable) (rows : List CanonRow),
      load_monthly_forecast p t = .ok rows → ∀ r ∈ rows,
      r.predicted_median.isSome = true →
      optLE r.pi95_low r.pi80_low ∧ optLE r.pi80_low r.pmReal ∧
      optLE r.pmReal r.pi80_high ∧ optLE r.pi80_high r.pi95_high) ∧
    (∀ (p : Pandas) (df out : PDF), df.WF → normalize_forecast_df p df = .ok out →
      ¬("pi80_low" ∈ (trimNames df).names ∧ "pi80_high" ∈ (trimNames df).names) →
      ¬("pi95_low" ∈ (trimNames df).names ∧ "pi95_high" ∈ (trimNames df).names) →
      ∀ (i : ℕ) (q : ℚ),
        (out.getCol "predicted_median").getD i (.num none) = .num (some q) →
        cellLE ((out.getCol "pi95_low").getD i (.num none))
          ((out.getCol "pi80_low").getD i (.num none)) ∧
        cellLE ((out.getCol "pi80_low").getD i (.num none))
          ((out.getCol "predicted_median").getD i (.num none)) ∧
        cellLE ((out.getCol "predicted_median").getD i (.num none))
          ((out.getCol "pi80_high").getD i (.num none)) ∧
        cellLE ((out.getCol "pi80_high").getD i (.num none))
          ((out.getCol "pi95_high").getD i (.num none))) := by
  constructor
  · intro p t rows hok r hr hsome
    rcases hc : candidateCols t with _ | ⟨c0, rest⟩
    · rw [load_monthly_error hc] at hok
      cases hok
    · have hne : candidateCols t ≠ [] := by rw [hc]; simp
      obtain ⟨hds, hvs⟩ := chosen_some_of_candidates hne
      obtain ⟨dc, hd⟩ := Option.isSome_iff_exists.mp hds
      obtain ⟨vc, hv⟩ := Option.isSome_iff_exists.mp hvs
      rw [load_monthly_eq hd hv] at hok
      obtain rfl : rows = sortRows ((monthlyRowsRaw p dc vc
          (actualSeries p t dc.values.length)).filter (fun r => r.date.isSome)) :=
        (Except.ok.inj hok).symm
      have hr' : r ∈ monthlyRowsRaw p dc vc (actualSeries p t dc.values.length) :=
        List.mem_of_mem_filter (mem_sortRows.mp hr)
      obtain ⟨d, m, a, _, _, _, rfl⟩ := date_mem_zip3With_monthlyRow hr'
      obtain ⟨q, rfl⟩ := Option.isSome_iff_exists.mp hsome
      have h80 := pi80Width_nonneg (coercedSeries p vc)
      have h85 := pi80Width_le_pi95Width (coercedSeries p vc)
      refine ⟨⟨_, _, rfl, rfl, by simp only; linarith⟩,
        ⟨_, _, rfl, rfl, by simp only; linarith⟩,
        ⟨_, _, rfl, rfl, by simp only; linarith⟩,
        ⟨_, _, rfl, rfl, by simp only; linarith⟩⟩
  · intro p df out hWF hok habs80 habs95 i q hq
    obtain ⟨h80lo, h80hi⟩ := (normalize_pi_spec hWF hok).1 habs80
    obtain ⟨h95lo, h95hi⟩ := (normalize_pi_spec hWF hok).2 habs95
    have hi : i < (out.getCol "predicted_median").length := by
      by_contra hcon
      rw [List.getD_eq_default _ _ (by omega)] at hq
      cases hq
    rw [h80lo, h80hi, h95lo, h95hi,
      getD_map_of_lt hi (CellVal.num none) (CellVal.num none),
      getD_map_of_lt hi (CellVal.num none) (CellVal.num none),
      getD_map_of_lt hi (CellVal.num none) (CellVal.num none),
      getD_map_of_lt hi (CellVal.num none) (CellVal.num none), hq]
    refine ⟨⟨q - 3, q - 3 / 2, rfl, rfl, by linarith⟩,
      ⟨q - 3 / 2, q, rfl, rfl, by linarith⟩,
      ⟨q, q + 3 / 2, rfl, rfl, by linarith⟩,
      ⟨q + 3 / 2, q + 3, rfl, rfl, by linarith⟩⟩

/-- Claim C7 counterexample.  On `T4`, both interval pairs are synthesized,
but the second row's `predicted_median` is `NaN`, so all its bounds are
`NaN` and the claimed comparison `pi95_low ≤ pi80_low` is false (NumPy
comparisons with `NaN` are false). -/
theorem c7_counterexample :
    load_monthly_forecast P4 T4 = .ok [S4row0, S4row1] ∧
    S4row1.pi95_low = none ∧ S4row1.pi80_low = none ∧
    ¬optLE S4row1.pi95_low S4row1.pi80_low := by
  refine ⟨loadS4, rfl, rfl, ?_⟩
  rintro ⟨x, y, hx, -, -⟩
  rw [show S4row1.pi95_low = none from rfl] at hx
  cases hx

/-- Claim C7 witness: the amended theorem instantiated on the run `T1`
(numeric prediction `10`) and on the normalizer run `N1` at row `0`
(prediction `10`). -/
theorem c7_witness :
    (optLE S1row.pi95_low S1row.pi80_low ∧ optLE S1row.pi80_low S1row.pmReal ∧
      optLE S1row.pmReal S1row.pi80_high ∧ optLE S1row.pi80_high S1row.pi95_high) ∧
    cellLE (((normOut PN N1).getCol "pi95_low").getD 0 (.num none))
      (((normOut PN N1).getCol "pi80_low").getD 0 (.num none)) := by
  have hok : normalize_forecast_df PN N1 = .ok (normOut PN N1) :=
    normalize_ok_normOut (by decide) (by decide)
  refine ⟨c7_interval_nesting.1 P1 T1 [S1row] loadS1 S1row (by simp) rfl, ?_⟩
  exact (c7_interval_nesting.2 PN N1 (normOut PN N1) (by unfold PDF.WF; decide) hok
    (by decide) (by decide) 0 10 (by decide)).1

/-- Claim C8 (confirmed).  `gen_metrics` (app.py lines 70-76): the error
series is the elementwise absolute difference of `actual` and
`predicted_median` (`NaN` when either is missing, in particular when
`actual` is); `MAE[i]` is the mean of the non-`NaN` entries of the trailing
window of up to 7 entries ending at `i` (a suffix of the first `i+1`
entries of length `min 7 (i+1)`), `NaN` when the window has no non-`NaN`
entry; the rolling mean of squared errors ranges over the same window, and
`RMSE` is its elementwise square root.  On the example error series
`[NaN, 2, 4]`: `MAE = 3`, mean square `= 10`, `RMSE = √10`. -/
theorem c8_metrics_spec :
    (∀ (a p : List (Option ℚ)) (i : ℕ),
      (errSeries a p).getD i none = absErr (a.getD i none) (p.getD i none)) ∧
    (∀ (a p : List (Option ℚ)) (i : ℕ), i < (errSeries a p).length →
      rollWindow (errSeries a p) i <:+ (errSeries a p).take (i + 1) ∧
      (rollWindow (errSeries a p) i).length = min 7 (i + 1) ∧
      (genMAE a p)[i]? = some (nanMean (rollWindow (errSeries a p) i)) ∧
      (genMSE a p)[i]? = some (nanMean (sqErr (rollWindow (errSeries a p) i)))) ∧
    (∀ w : List (Option ℚ),
      (w.reduceOption = [] → nanMean w = none) ∧
      (w.reduceOption ≠ [] →
        nanMean w = some (w.reduceOption.sum / w.reduceOption.length))) ∧
    (errSeries exActual exPm = [none, some 2, some 4] ∧
      (genMAE exActual exPm)[2]? = some (some 3) ∧
      (genMSE exActual exPm)[2]? = some (some 10) ∧
      (genRMSE exActual exPm)[2]? = some (some (Real.sqrt 10))) := by
  refine ⟨fun a p i => getD_errSeries a p i, ?_, ?_, ?_⟩
  · intro a p i hi
    refine ⟨rollWindow_suffix _ _, rollWindow_length hi, rollingMean_getElem hi, ?_⟩
    have hi' : i < (sqErr (errSeries a p)).length := by
      unfold sqErr
      rw [List.length_map]
      exact hi
    have hms := rollingMean_getElem hi'
    rw [show rollWindow (sqErr (errSeries a p)) i = sqErr (rollWindow (errSeries a p) i)
      from rollWindow_map _ _ _] at hms
    exact hms
  · intro w
    constructor
    · intro h
      unfold nanMean
      rw [if_pos h]
    · intro h
      unfold nanMean
      rw [if_neg h]
  · have herr : errSeries exActual exPm = [none, some 2, some 4] := by
      show List.zipWith absErr exActual exPm = _
      unfold exActual exPm
      norm_num [List.zipWith_cons_cons, absErr]
    have hmae : (genMAE exActual exPm)[2]? = some (some 3) := by
      show (rollingMean (errSeries exActual exPm))[2]? = some (some 3)
      rw [herr,
        rollingMean_getElem (by decide : (2 : ℕ) < ([none, some (2 : ℚ), some 4]).length)]
      congr 1
      rw [show rollWindow [none, some (2 : ℚ), some 4] 2 = [none, some 2, some 4] from rfl]
      unfold nanMean
      rw [show ([none, some (2 : ℚ), some 4].reduceOption) = [2, 4] from rfl,
        if_neg (by simp)]
      norm_num
    have hsq : sqErr [none, some (2 : ℚ), some 4] = [none, some 4, some 16] := by
      norm_num [sqErr, Option.map_some', Option.map_none']
    have hmse : (genMSE exActual exPm)[2]? = some (some 10) := by
      show (rollingMean (sqErr (errSeries exActual exPm)))[2]? = some (some 10)
      rw [herr, hsq,
        rollingMean_getElem (by decide : (2 : ℕ) < ([none, some (4 : ℚ), some 16]).length)]
      congr 1
      rw [show rollWindow [none, some (4 : ℚ), some 16] 2 = [none, some 4, some 16] from rfl]
      unfold nanMean
      rw [show ([none, some (4 : ℚ), some 16].reduceOption) = [4, 16] from rfl,
        if_neg (by simp)]
      norm_num
    have hrmse : (genRMSE exActual exPm)[2]? = some (some (Real.sqrt 10)) := by
      unfold genRMSE
      rw [List.getElem?_map, hmse]
      simp only [Option.map_some']
      congr 2
    exact ⟨herr, hmae, hmse, hrmse⟩

/-- Claim C8 witness: the window conjunct instantiated on the example
series at index 2, and the `nanMean` conjunct on its window. -/
theorem c8_witness :
    (rollWindow (errSeries exActual exPm) 2 <:+ (errSeries exActual exPm).take 3 ∧
      (rollWindow (errSeries exActual exPm) 2).length = min 7 3 ∧
      (genMAE exActual exPm)[2]? =
        some (nanMean (rollWindow (errSeries exActual exPm) 2)) ∧
      (genMSE exActual exPm)[2]? =
        some (nanMean (sqErr (rollWindow (errSeries exActual exPm) 2)))) ∧
    (errSeries exActual exPm).getD 0 none =
      absErr (exActual.getD 0 none) (exPm.getD 0 none) := by
  exact ⟨c8_metrics_spec.2.1 exActual exPm 2 (by decide),
    c8_metrics_spec.1 exActual exPm 0⟩

/-- Claim C9 (confirmed).  The prediction column the monthly loader uses
(selectbox default) is the first keyword-matching column of the combined
`numeric + numeric-like` candidate list; when no candidate name matches, it
is the first candidate in classifier discovery order; when the candidate
list is empty the loader fails with the `ValueError` of app.py line 124
(the spec's `NoNumericColumnError`). -/
theorem c9_value_column_selection :
    (∀ (t : RawTable) (p : Pandas), candidateCols t = [] →
      load_monthly_forecast p t = .error .noNumericColumnError) ∧
    (∀ (t : RawTable) (c : RawColumn),
      (candidateCols t).find? kwMatch = some c → chosenValueCol t = some c) ∧
    (∀ t : RawTable, (candidateCols t).find? kwMatch = none →
      chosenValueCol t = (candidateCols t).head?) := by
  refine ⟨fun t p h => load_monthly_error h, ?_, ?_⟩
  · intro t c h
    unfold chosenValueCol
    cases hc : candidateCols t with
    | nil => rw [hc] at h; cases h
    | cons c0 rest =>
      have hh : (preferredCols t).head? = some c := by
        show ((candidateCols t).filter kwMatch).head? = some c
        rw [List.filter_head?]
        exact h
      cases hp : preferredCols t with
      | nil => rw [hp] at hh; cases hh
      | cons q qs =>
        rw [hp] at hh
        show some ((q :: qs).headD c0) = some c
        rw [List.headD_cons]
        simpa using hh
  · intro t h
    unfold chosenValueCol
    cases hc : candidateCols t with
    | nil => rfl
    | cons c0 rest =>
      have hh : (preferredCols t).head? = none := by
        show ((candidateCols t).filter kwMatch).head? = none
        rw [List.filter_head?]
        exact h
      rw [List.head?_eq_none_iff] at hh
      show some ((preferredCols t).headD c0) = (c0 :: rest).head?
      rw [hh, List.headD_nil, List.head?_cons]

/-- Claim C9 witness: the empty-candidate case on `T9` (one non-numeric,
non-numeric-like column), the keyword-match case on `T1` (the
`Forecast_Cases` column matches "forecast"), and the no-match case on `T9b`
(columns `x`, `y`: the first candidate is chosen). -/
theorem c9_witness :
    load_monthly_forecast P1 T9 = .error .noNumericColumnError ∧
    chosenValueCol T1 = some T1fc ∧
    chosenValueCol T9b = (candidateCols T9b).head? := by
  refine ⟨c9_value_column_selection.1 T9 P1 (by decide),
    c9_value_column_selection.2.1 T1 T1fc (by decide),
    c9_value_column_selection.2.2 T9b (by decide)⟩

/-- Claim C10 (confirmed).  In `_normalize_forecast_df`, interval synthesis
for a pair fires whenever the pair is not complete in the (trimmed) input —
in particular when exactly one of the two columns is present — and then
BOTH columns of the pair are assigned `predicted_median ∓ width`
(width `1.5` for the 80% pair, `3.0` for the 95% pair), silently
overwriting any user-supplied column of that pair
(data_loader.py lines 48-55). -/
theorem c10_incomplete_pair_overwritten :
    ∀ (p : Pandas) (df out : PDF), df.WF → normalize_forecast_df p df = .ok out →
      (¬("pi80_low" ∈ (trimNames df).names ∧ "pi80_high" ∈ (trimNames df).names) →
        out.getCol "pi80_low" =
          (out.getCol "predicted_median").map (cellSubW (3 / 2)) ∧
        out.getCol "pi80_high" =
          (out.getCol "predicted_median").map (cellAddW (3 / 2))) ∧
      (¬("pi95_low" ∈ (trimNames df).names ∧ "pi95_high" ∈ (trimNames df).names) →
        out.getCol "pi95_low" = (out.getCol "predicted_median").map (cellSubW 3) ∧
        out.getCol "pi95_high" = (out.getCol "predicted_median").map (cellAddW 3)) :=
  fun _ _ _ hWF hok => normalize_pi_spec hWF hok

/-- Claim C10 witness: the frame `N4` supplies `pi80_low = 999` but no
`pi80_high`; the normalizer recomputes both columns from
`predicted_median ∓ 1.5`, overwriting the supplied values. -/
theorem c10_witness :
    N4.WF ∧ "pi80_low" ∈ (trimNames N4).names ∧
    "pi80_high" ∉ (trimNames N4).names ∧
    N4.getCol "pi80_low" = [.num (some 999)] ∧
    normalize_forecast_df PN N4 = .ok (normOut PN N4) ∧
    (normOut PN N4).getCol "pi80_low" =
      ((normOut PN N4).getCol "predicted_median").map (cellSubW (3 / 2)) ∧
    (normOut PN N4).getCol "pi80_high" =
      ((normOut PN N4).getCol "predicted_median").map (cellAddW (3 / 2)) := by
  have hok : normalize_forecast_df PN N4 = .ok (normOut PN N4) :=
    normalize_ok_normOut (by decide) (by decide)
  have h := (c10_incomplete_pair_overwritten PN N4 (normOut PN N4)
    (by unfold PDF.WF; decide) hok).1 (by decide)
  exact ⟨by unfold PDF.WF; decide, by decide, by decide, by decide, hok, h.1, h.2⟩

end HepB
